import Mathlib

/-! Package `populate`: a shallow embedding of `Populate` and its helpers, and the
properties the specification states about them.

The program (`src/populate/populate.go`) seeds a cluster with demo data: it resolves
registry credentials, creates a namespace, a secret and a service account, creates or
updates one shared builder, and then creates `count` image resources in a loop.

Everything the program talks to (the registry keychain, the cluster API, the random
number generator, the name generator, the clock) is outside the repository.  The
embedding keeps the control flow of the Go code and makes the surroundings explicit:

* `Env` holds how the surroundings answer (which calls fail, what the server returns);
* `World` is the state the run acts on: the builder store, the resources created so
  far and the list of calls issued;
* a Go `error` is `Option Err` (`none` is `nil`), a Go `(value, error)` result is
  `Except Err value`;
* the job loop may run forever, so it is given fuel and a run is a `Run`.
-/

namespace populate

/-! ## Errors -/

/-- Reason carried by an API status error (`metav1.StatusReason`), as far as the
program tells reasons apart. -/
inductive StatusReason
  | NotFound
  | AlreadyExists
  | Unknown
  deriving DecidableEq, Repr

/-- Values of Go's `error` that are not `nil`. -/
inductive Err
  | status (reason : StatusReason) (msg : String)
  | plain (msg : String)
  | wrapped (cause : Err) (msg : String)
  deriving DecidableEq, Repr

/-- `k8errors.IsAlreadyExists(err)`; `false` on `nil` and on errors that are not API
status errors. -/
def IsAlreadyExists : Option Err → Bool
  | some (.status .AlreadyExists _) => true
  | _ => false

/-- `k8errors.IsNotFound(err)`. -/
def IsNotFound : Option Err → Bool
  | some (.status .NotFound _) => true
  | _ => false

/-- `errors.Wrapf(err, msg)` for a non-nil `err`, the format already expanded. -/
def Wrapf (err : Err) (msg : String) : Err := .wrapped err msg

/-- The `error` half of a Go `(value, error)` result. -/
def errOf {α : Type} : Except Err α → Option Err
  | .error e => some e
  | .ok _ => none

/-! ## Machine integers -/

/-- A Go `int32`. -/
structure Int32 where
  val : Int
  lo : -2147483648 ≤ val
  hi : val ≤ 2147483647

/-- Two's complement wrap-around of Go's `int`, taken as 64 bits wide. -/
def wrapInt (x : Int) : Int := (x + 9223372036854775808) % 18446744073709551616 - 9223372036854775808

/-! ## Resources -/

/-- Go `map[string]string`; `none` is the nil map. -/
abbrev StringMap := Option (List (String × String))

/-- Assignment `m[k] = v` on an allocated map. -/
def mapSet (m : List (String × String)) (k v : String) : List (String × String) :=
  (k, v) :: m.filter (fun kv => kv.1 != k)

/-- Lookup `m[k]` with the presence flag. -/
def mapGet (m : StringMap) (k : String) : Option String :=
  match m with
  | none => none
  | some kvs => kvs.lookup k

structure ObjectMeta where
  Name : String := ""
  GenerateName : String := ""
  Namespace : String := ""
  Annotations : StringMap := none
  deriving DecidableEq, Repr

structure ObjectReference where
  Kind : String := ""
  Namespace : String := ""
  Name : String := ""
  deriving DecidableEq, Repr

structure Namespace where
  ObjectMeta : ObjectMeta := {}
  deriving DecidableEq, Repr

structure Secret where
  ObjectMeta : ObjectMeta := {}
  StringData : StringMap := none
  SecretType : String := ""
  deriving DecidableEq, Repr

/-- `v1.SecretTypeBasicAuth`. -/
def SecretTypeBasicAuth : String := "kubernetes.io/basic-auth"

structure ServiceAccount where
  ObjectMeta : ObjectMeta := {}
  Secrets : List ObjectReference := []
  deriving DecidableEq, Repr

structure Git where
  URL : String := ""
  Revision : String := ""
  deriving DecidableEq, Repr

structure SourceConfig where
  Git : Option Git := none
  SubPath : String := ""
  deriving DecidableEq, Repr

/-- A parsed `resource.Quantity`; the program only passes it on. -/
structure Quantity where
  text : String
  deriving DecidableEq, Repr

inductive ImageTaggingStrategy
  | None
  | BuildNumber
  deriving DecidableEq, Repr

structure ImageSpec where
  Tag : String := ""
  Builder : ObjectReference := {}
  ServiceAccount : String := ""
  Source : SourceConfig := {}
  CacheSize : Option Quantity := none
  ImageTaggingStrategy : ImageTaggingStrategy := .None
  deriving DecidableEq, Repr

structure Image where
  ObjectMeta : ObjectMeta := {}
  Spec : ImageSpec := {}
  deriving DecidableEq, Repr

/-- Modelled from the spec: the "order" structure describing build steps
(`expv1alpha1.Order`, declared in the kpack library); the program only stores it. -/
structure Order where
  steps : List (List String) := []
  deriving DecidableEq, Repr

structure CustomBuilderSpec where
  Tag : String := ""
  Stack : String := ""
  Store : String := ""
  Order : Order := {}
  deriving DecidableEq, Repr

structure CustomClusterBuilderSpec where
  CustomBuilderSpec : CustomBuilderSpec := {}
  ServiceAccountRef : ObjectReference := {}
  deriving DecidableEq, Repr

structure CustomClusterBuilder where
  ObjectMeta : ObjectMeta := {}
  Spec : CustomClusterBuilderSpec := {}
  deriving DecidableEq, Repr

/-- The constants of package `defaults` (not part of the source at hand). -/
structure Defaults where
  Namespace : String
  BuilderName : String
  StackName : String
  StoreName : String
  OldSpecAnnotation : String
  deriving DecidableEq, Repr

/-! ## Registry references and credentials -/

/-- A `name.Registry`, as far as the program reads it: `RegistryStr` is what its
method `RegistryStr()` returns. -/
structure Registry where
  RegistryStr : String
  deriving DecidableEq, Repr

/-- A parsed `name.Reference`: `Registry` is `reg.Context().Registry`. -/
structure Reference where
  Registry : Registry
  deriving DecidableEq, Repr

/-- Result of `auth.Authorization()` on success. -/
structure AuthConfig where
  Username : String
  Password : String
  deriving DecidableEq, Repr

/-- An `authn.Authenticator`: what its `Authorization()` call answers. -/
structure Authenticator where
  Authorization : Except Err AuthConfig

/-! ## The surroundings -/

/-- The core cluster client (`kubernetes.Clientset`): how the server answers the
three create calls the program issues through it. -/
structure CoreClient where
  CreateNamespace : Namespace → Except Err Namespace
  CreateSecret : String → Secret → Except Err Secret
  CreateServiceAccount : String → ServiceAccount → Except Err ServiceAccount

/-- The build-platform client (`versioned.Clientset`).  Builder calls act on the
builder store of the `World`; `GetFault`, `CreateFault` and `UpdateFault` make the
corresponding call fail with the given error before it reaches the store.
`CreateImage n` is the outcome of the image Create call number `n` (from 0): `none`
when the server stores the submitted image, otherwise the error it answers with. -/
structure Clientset where
  GetFault : Option Err
  CreateFault : Option Err
  UpdateFault : Option Err
  CreateImage : Nat → Option Err

/-- Everything outside the program that decides a run.  `rand n` is the raw draw of
the random generator in the pass of the job loop that issues image Create call `n`,
`NewNameGenerator n` the name the name generator hands out in that pass. -/
structure Env where
  BuildConfigFromFlags : Option Err
  KubernetesNewForConfig : Option Err
  VersionedNewForConfig : Option Err
  ParseReference : String → Except Err Reference
  DefaultRegistry : String
  Resolve : Registry → Except Err Authenticator
  ParseQuantity : String → Except Err Quantity
  Marshal : CustomClusterBuilderSpec → Except Err String
  k8sclient : CoreClient
  client : Clientset
  rand : Nat → Nat
  NewNameGenerator : Nat → String

/-- A call that leaves the process. -/
inductive Call
  | KeychainResolve (registry : Registry)
  | Authorization
  | CreateNamespace (obj : Namespace)
  | CreateSecret (ns : String) (s : Secret)
  | CreateServiceAccount (ns : String) (sa : ServiceAccount)
  | GetBuilder (name : String)
  | CreateBuilder (b : CustomClusterBuilder)
  | UpdateBuilder (b : CustomClusterBuilder)
  | CreateImage (ns : String) (img : Image)
  deriving DecidableEq, Repr

/-- The state a run acts on.  `calls` lists every call issued, newest first;
`builders` is the store of builder resources; `secrets`, `serviceAccounts` and
`images` are the objects whose Create call succeeded, newest first;
`imageCreates` counts the image Create calls issued; `logs` and `slept` record
`log.Printf` lines and seconds spent in `time.Sleep`. -/
structure World where
  builders : List CustomClusterBuilder := []
  secrets : List Secret := []
  serviceAccounts : List ServiceAccount := []
  images : List Image := []
  calls : List Call := []
  imageCreates : Nat := 0
  logs : List String := []
  slept : Nat := 0
  deriving DecidableEq, Repr

/-- How a run of the program ends, with the state it leaves.  `returned err` is a
normal return (`err = none` is `nil`), `panicked` a run-time panic, `outOfFuel` a
run cut off while the job loop was still going. -/
inductive Run
  | returned (err : Option Err) (w : World)
  | panicked (w : World)
  | outOfFuel (w : World)
  deriving DecidableEq, Repr

/-- State a run leaves behind. -/
def Run.world : Run → World
  | .returned _ w => w
  | .panicked w => w
  | .outOfFuel w => w

/-! ## The calls on the cluster -/

/-- `k8sclient.CoreV1().Namespaces().Create(obj)`. -/
def CoreClient.createNamespace (k : CoreClient) (obj : Namespace) (w : World) :
    Except Err Namespace × World :=
  (k.CreateNamespace obj, { w with calls := .CreateNamespace obj :: w.calls })

/-- `k8sclient.CoreV1().Secrets(ns).Create(s)`: the server answers with the stored
object (its generated name filled in) or with an error. -/
def CoreClient.createSecret (k : CoreClient) (ns : String) (s : Secret) (w : World) :
    Except Err Secret × World :=
  let w1 := { w with calls := .CreateSecret ns s :: w.calls }
  match k.CreateSecret ns s with
  | .error err => (.error err, w1)
  | .ok secret => (.ok secret, { w1 with secrets := secret :: w1.secrets })

/-- `k8sclient.CoreV1().ServiceAccounts(ns).Create(sa)`. -/
def CoreClient.createServiceAccount (k : CoreClient) (ns : String) (sa : ServiceAccount)
    (w : World) : Except Err ServiceAccount × World :=
  let w1 := { w with calls := .CreateServiceAccount ns sa :: w.calls }
  match k.CreateServiceAccount ns sa with
  | .error err => (.error err, w1)
  | .ok serviceAccount =>
    (.ok serviceAccount, { w1 with serviceAccounts := serviceAccount :: w1.serviceAccounts })

/-- `client.ExperimentalV1alpha1().CustomClusterBuilders().Get(name, opts)` on the
builder store: the stored builder of that name, a NotFound status error when there is
none. -/
def Clientset.getBuilder (client : Clientset) (name : String) (w : World) :
    Except Err CustomClusterBuilder × World :=
  let w1 := { w with calls := .GetBuilder name :: w.calls }
  match client.GetFault with
  | some err => (.error err, w1)
  | none =>
    match w.builders.find? (fun b => b.ObjectMeta.Name == name) with
    | some b => (.ok b, w1)
    | none => (.error (.status .NotFound name), w1)

/-- `CustomClusterBuilders().Create(b)` on the builder store: an AlreadyExists status
error when a builder of that name is stored, otherwise the builder is added. -/
def Clientset.createBuilder (client : Clientset) (b : CustomClusterBuilder) (w : World) :
    Except Err CustomClusterBuilder × World :=
  let w1 := { w with calls := .CreateBuilder b :: w.calls }
  match client.CreateFault with
  | some err => (.error err, w1)
  | none =>
    if w.builders.any (fun x => x.ObjectMeta.Name == b.ObjectMeta.Name) then
      (.error (.status .AlreadyExists b.ObjectMeta.Name), w1)
    else (.ok b, { w1 with builders := b :: w1.builders })

/-- `CustomClusterBuilders().Update(b)` on the builder store: a NotFound status error
when no builder of that name is stored, otherwise the stored builder is replaced. -/
def Clientset.updateBuilder (client : Clientset) (b : CustomClusterBuilder) (w : World) :
    Except Err CustomClusterBuilder × World :=
  let w1 := { w with calls := .UpdateBuilder b :: w.calls }
  match client.UpdateFault with
  | some err => (.error err, w1)
  | none =>
    if w.builders.any (fun x => x.ObjectMeta.Name == b.ObjectMeta.Name) then
      let replaced :=
        w1.builders.map (fun x => if x.ObjectMeta.Name == b.ObjectMeta.Name then b else x)
      (.ok b, { w1 with builders := replaced })
    else (.error (.status .NotFound b.ObjectMeta.Name), w1)

/-- `client.BuildV1alpha1().Images(ns).Create(img)`: the outcome of this call is the
next one of `client.CreateImage`; on success the server stores `img` and answers
with it. -/
def Clientset.createImage (client : Clientset) (ns : String) (img : Image) (w : World) :
    Except Err Image × World :=
  let w1 := { w with calls := .CreateImage ns img :: w.calls, imageCreates := w.imageCreates + 1 }
  match client.CreateImage w.imageCreates with
  | some err => (.error err, w1)
  | none => (.ok img, { w1 with images := img :: w1.images })

/-! ## The program -/

/-- The struct `config` (lines 146-153). -/
structure config where
  builder : String := ""
  imageTag : String := ""
  username : String := ""
  password : String := ""
  registry : String := ""
  count : Int := 0
  deriving DecidableEq, Repr

/-- `loadConfig` (lines 155-183), with its two results `(config, error)`.  The second
and third `Wrapf` calls pass `imageTag` to a format without a verb, which `fmt` renders
as an `%!(EXTRA ...)` suffix. -/
def loadConfig (env : Env) (count : Int32) (imageTag : String) (w : World) :
    (config × Option Err) × World :=
  match env.ParseReference imageTag with
  | .error err => (({}, some (Wrapf err ("could not parse " ++ imageTag))), w)
  | .ok reg =>
    let w1 := { w with calls := .KeychainResolve reg.Registry :: w.calls }
    match env.Resolve reg.Registry with
    | .error err =>
      (({}, some (Wrapf err ("could not find registry%!(EXTRA string=" ++ imageTag ++ ")"))), w1)
    | .ok auth =>
      let w2 := { w1 with calls := .Authorization :: w1.calls }
      match auth.Authorization with
      | .error err =>
        (({}, some (Wrapf err ("could not get auth for imge%!(EXTRA string=" ++ imageTag ++ ")"))),
          w2)
      | .ok basicAuth =>
        (({ username := basicAuth.Username
            password := basicAuth.Password
            count := count.val
            imageTag := imageTag
            registry :=
              if reg.Registry.RegistryStr = env.DefaultRegistry then
                "https://" ++ env.DefaultRegistry ++ "/v1/"
              else reg.Registry.RegistryStr },
          none),
         w2)

/-- The slice `sourceConfigs` of `randomSourceConfig` (lines 187-214). -/
def sourceConfigs : List SourceConfig :=
  [ { Git := some
        { URL := "https://github.com/matthewmcnew/sample-java-app"
          Revision := "dbba68cee6473b5df51a1a43806d920d2ed4e4ee" } },
    { Git := some
        { URL := "https://github.com/matthewmcnew/build-samples"
          Revision := "a94df327e098fe924b06547a1adf9c3cda5684c9" } },
    { Git := some
        { URL := "https://github.com/cloudfoundry/go-mod-cnb"
          Revision := "master" }
      SubPath := "integration/testdata/vendored" },
    { Git := some
        { URL := "https://github.com/cloudfoundry/dotnet-core-runtime-cnb"
          Revision := "master" }
      SubPath := "integration/testdata/simple_app" } ]

/-- The slice `imageTypes` of `randomSourceConfig` (lines 216-221). -/
def imageTypes : List String := ["java", "node", "go", "dotnet"]

/-- `rand.Intn(n)` for `n > 0` on a generator whose next raw draw is `draw`: a value
in `[0, n)`. -/
def Intn (draw : Nat) (n : Nat) : Nat := draw % n

/-- `randomSourceConfig` (lines 185-226); `draw` is the raw draw of the freshly seeded
generator.  `none` is the run-time panic of an index out of range. -/
def randomSourceConfig (draw : Nat) : Option (SourceConfig × String) :=
  let randomIndex := Intn draw sourceConfigs.length
  match sourceConfigs[randomIndex]?, imageTypes[randomIndex]? with
  | some sourceConfig, some imageType => some (sourceConfig, imageType)
  | _, _ => none

/-- `saveBuilder` (lines 228-250).

In the `else` branch `oldSpec, err := json.Marshal(...)` declares a second `err`, local
to that block; `_, err = ...Update(existingBuilder)` assigns to this inner `err`, and the
final `return err` reads the `err` of the function body, which is `nil` whenever the
`else` branch is reached.  `marshal` is `json.Marshal` on builder specs. -/
def saveBuilder (d : Defaults) (marshal : CustomClusterBuilderSpec → Except Err String)
    (client : Clientset) (builder : CustomClusterBuilder) (w : World) : Option Err × World :=
  match client.getBuilder d.BuilderName w with
  | (.error err, w1) =>
    if !IsNotFound (some err) then (some err, w1)
    else
      match client.createBuilder builder w1 with
      | (res, w2) => (errOf res, w2)
  | (.ok existingBuilder, w1) =>
    match marshal existingBuilder.Spec with
    | .error err => (some err, w1)
    | .ok oldSpec =>
      let annotations := existingBuilder.ObjectMeta.Annotations.getD []
      let existingBuilder : CustomClusterBuilder :=
        { ObjectMeta :=
            { existingBuilder.ObjectMeta with
              Annotations := some (mapSet annotations d.OldSpecAnnotation oldSpec) }
          Spec := builder.Spec }
      match client.updateBuilder existingBuilder w1 with
      | (_, w2) => (none, w2)

/-- The image the job loop submits (lines 117-132). -/
def newImage (d : Defaults) (c : config) (serviceAccount : ServiceAccount) (cache : Quantity)
    (name : String) (sourceConfig : SourceConfig) (tag : String) : Image :=
  { ObjectMeta := { Name := name }
    Spec :=
      { Tag := c.imageTag ++ ":" ++ tag
        Builder := { Name := d.BuilderName, Kind := "CustomClusterBuilder" }
        ServiceAccount := serviceAccount.ObjectMeta.Name
        Source := sourceConfig
        CacheSize := some cache
        ImageTaggingStrategy := .None } }

/-- The job loop of `Populate` (lines 115-142), from the test `i <= c.count` on.
One unit of fuel pays for one pass through the body.  On an AlreadyExists answer the
body runs `i--` and `continue`, and `continue` still runs the post statement `i++`. -/
def Populate.loop (d : Defaults) (rand : Nat → Nat) (nameGenerator : Nat → String)
    (client : Clientset) (c : config) (serviceAccount : ServiceAccount) (cache : Quantity) :
    Nat → Int → World → Run
  | 0, i, w => if i ≤ c.count then .outOfFuel w else .returned none w
  | fuel + 1, i, w =>
    if i ≤ c.count then
      match randomSourceConfig (rand w.imageCreates) with
      | none => .panicked w
      | some (sourceConfig, tag) =>
        match client.createImage d.Namespace
            (newImage d c serviceAccount cache (nameGenerator w.imageCreates) sourceConfig tag)
            w with
        | (.error err, w1) =>
          if !IsAlreadyExists (some err) then .returned (some err) w1
          else Populate.loop d rand nameGenerator client c serviceAccount cache fuel
            (wrapInt (wrapInt (i - 1) + 1)) w1
        | (.ok image, w1) =>
          Populate.loop d rand nameGenerator client c serviceAccount cache fuel (wrapInt (i + 1))
            { w1 with
              logs := ("created image " ++ image.ObjectMeta.Name) :: w1.logs
              slept := w1.slept + 3 }
    else .returned none w

/-- The part of `Populate` between the namespace and the job loop (lines 57-112):
secret, service account, builder and cache size. -/
def Populate.afterNamespace (d : Defaults) (env : Env) (c : config) (order : Order)
    (cacheSize : String) (w2 : World) :
    Except Err (config × ServiceAccount × Quantity) × World :=
  match env.k8sclient.createSecret d.Namespace
      { ObjectMeta :=
          { GenerateName := "pbdemo-dockersecret-"
            Annotations := some [("build.pivotal.io/docker", c.registry)] }
        StringData := some [("username", c.username), ("password", c.password)]
        SecretType := SecretTypeBasicAuth } w2 with
  | (.error err, w3) => (.error err, w3)
  | (.ok secret, w3) =>
  match env.k8sclient.createServiceAccount d.Namespace
      { ObjectMeta := { GenerateName := "pbdemo-serviceaccount-" }
        Secrets := [{ Name := secret.ObjectMeta.Name }] } w3 with
  | (.error err, w4) => (.error err, w4)
  | (.ok serviceAccount, w4) =>
  match saveBuilder d env.Marshal env.client
      { ObjectMeta := { Name := d.BuilderName }
        Spec :=
          { CustomBuilderSpec :=
              { Tag := c.imageTag ++ ":" ++ "builder"
                Stack := d.StackName
                Store := d.StoreName
                Order := order }
            ServiceAccountRef :=
              { Namespace := serviceAccount.ObjectMeta.Namespace
                Name := serviceAccount.ObjectMeta.Name } } } w4 with
  | (some err, w5) => (.error err, w5)
  | (none, w5) =>
  match env.ParseQuantity cacheSize with
  | .error err => (.error err, w5)
  | .ok cache => (.ok (c, serviceAccount, cache), w5)

/-- The part of `Populate` up to the namespace (lines 28-55): the clients, the
configuration and the namespace, whose AlreadyExists answer is let through; then
`Populate.afterNamespace`.  On success the job loop is handed the configuration, the
created service account and the parsed cache size. -/
def Populate.setup (d : Defaults) (env : Env) (count : Int32) (order : Order)
    (imageTag cacheSize : String) (w : World) :
    Except Err (config × ServiceAccount × Quantity) × World :=
  match env.BuildConfigFromFlags with
  | some err => (.error (Wrapf err "building kubeconfig"), w)
  | none =>
  match env.KubernetesNewForConfig with
  | some err => (.error (Wrapf err "building kubeconfig"), w)
  | none =>
  match env.VersionedNewForConfig with
  | some err => (.error (Wrapf err "building kubeconfig"), w)
  | none =>
  match loadConfig env count imageTag w with
  | ((_, some err), w1) => (.error err, w1)
  | ((c, none), w1) =>
  match env.k8sclient.createNamespace { ObjectMeta := { Name := d.Namespace } } w1 with
  | (.error err, w2) =>
    if !IsAlreadyExists (some err) then (.error err, w2)
    else Populate.afterNamespace d env c order cacheSize w2
  | (.ok _, w2) => Populate.afterNamespace d env c order cacheSize w2

/-- `Populate` (lines 27-144). -/
def Populate (d : Defaults) (env : Env) (fuel : Nat) (count : Int32) (order : Order)
    (imageTag cacheSize : String) (w : World) : Run :=
  match Populate.setup d env count order imageTag cacheSize w with
  | (.error err, w1) => .returned (some err) w1
  | (.ok (c, serviceAccount, cache), w1) =>
    Populate.loop d env.rand env.NewNameGenerator env.client c serviceAccount cache fuel 1 w1

/-! ## Notions used in the statements -/

/-- The pair `randomSourceConfig` selects on raw draw `draw`. -/
def pick (draw : Nat) : SourceConfig × String :=
  (sourceConfigs.getD (draw % 4) {}, imageTypes.getD (draw % 4) "")

/-- Image the job loop submits in the pass that starts in world `w`. -/
def nextImage (d : Defaults) (rand : Nat → Nat) (nameGenerator : Nat → String) (c : config)
    (serviceAccount : ServiceAccount) (cache : Quantity) (w : World) : Image :=
  newImage d c serviceAccount cache (nameGenerator w.imageCreates)
    (pick (rand w.imageCreates)).1 (pick (rand w.imageCreates)).2

/-- World after an image Create call that was answered with an error. -/
def World.afterRefused (w : World) (ns : String) (img : Image) : World :=
  { w with calls := .CreateImage ns img :: w.calls, imageCreates := w.imageCreates + 1 }

/-- World after a pass of the loop body whose image Create call succeeded. -/
def World.afterCreated (w : World) (ns : String) (img : Image) : World :=
  { w with
    calls := .CreateImage ns img :: w.calls
    imageCreates := w.imageCreates + 1
    images := img :: w.images
    logs := ("created image " ++ img.ObjectMeta.Name) :: w.logs
    slept := w.slept + 3 }

/-- Number of successes among the `m` outcomes `o base, ..., o (base + m - 1)`. -/
def successesBefore (o : Nat → Option Err) : Nat → Nat → Nat
  | _, 0 => 0
  | base, m + 1 => (if o base = none then 1 else 0) + successesBefore o (base + 1) m

/-- Images submitted for creation among the calls, newest first. -/
def submittedImages : List Call → List Image
  | [] => []
  | .CreateImage _ img :: rest => img :: submittedImages rest
  | _ :: rest => submittedImages rest

/-- The builder `saveBuilder` sends to Update: the stored one with the old spec as an
annotation and the new spec. -/
def updatedBuilder (d : Defaults) (existingBuilder builder : CustomClusterBuilder)
    (oldSpec : String) : CustomClusterBuilder :=
  { ObjectMeta :=
      { existingBuilder.ObjectMeta with
        Annotations :=
          some (mapSet (existingBuilder.ObjectMeta.Annotations.getD []) d.OldSpecAnnotation oldSpec) }
    Spec := builder.Spec }

/-- The surroundings `env`, except that the namespace Create call succeeds. -/
def namespaceCreated (env : Env) : Env :=
  { env with k8sclient := { env.k8sclient with CreateNamespace := fun obj => .ok obj } }

/-- The secret `Populate` submits (lines 57-69). -/
def registrySecret (c : config) : Secret :=
  { ObjectMeta :=
      { GenerateName := "pbdemo-dockersecret-"
        Annotations := some [("build.pivotal.io/docker", c.registry)] }
    StringData := some [("username", c.username), ("password", c.password)]
    SecretType := SecretTypeBasicAuth }

/-! ## A sample cluster, for concrete runs -/

/-- Sample values for the constants of package `defaults`. -/
def sampleDefaults : Defaults :=
  { Namespace := "demo"
    BuilderName := "demo-builder"
    StackName := "stack"
    StoreName := "store"
    OldSpecAnnotation := "old-spec" }

/-- A core client whose namespace Create call answers `answer` (`none`: created) and
whose other calls succeed, the server naming the objects `sec-1` and `sa-1`. -/
def sampleCoreClient (answer : Option Err) : CoreClient :=
  { CreateNamespace := fun obj =>
      match answer with
      | some err => .error err
      | none => .ok obj
    CreateSecret := fun _ s => .ok { s with ObjectMeta := { s.ObjectMeta with Name := "sec-1" } }
    CreateServiceAccount := fun ns sa =>
      .ok { sa with ObjectMeta := { sa.ObjectMeta with Name := "sa-1", Namespace := ns } } }

/-- A build-platform client without builder faults except `updateFault`, whose image
Create calls have the outcomes `outcomes`. -/
def sampleClient (updateFault : Option Err) (outcomes : Nat → Option Err) : Clientset :=
  { GetFault := none
    CreateFault := none
    UpdateFault := updateFault
    CreateImage := outcomes }

/-- A serializer standing in for `json.Marshal`: it writes the tag, stack and store. -/
def sampleMarshal (s : CustomClusterBuilderSpec) : Except Err String :=
  .ok (s.CustomBuilderSpec.Tag ++ "," ++ s.CustomBuilderSpec.Stack ++ "," ++
    s.CustomBuilderSpec.Store)

/-- Surroundings in which every step before the job loop succeeds, apart from what
the three arguments say; the empty image tag does not parse. -/
def sampleEnv (answer : Option Err) (updateFault : Option Err) (outcomes : Nat → Option Err) :
    Env :=
  { BuildConfigFromFlags := none
    KubernetesNewForConfig := none
    VersionedNewForConfig := none
    ParseReference := fun s =>
      if s = "" then .error (.plain "empty reference") else .ok { Registry := { RegistryStr := "r.io" } }
    DefaultRegistry := "index.docker.io"
    Resolve := fun _ => .ok { Authorization := .ok { Username := "u", Password := "p" } }
    ParseQuantity := fun s => .ok { text := s }
    Marshal := sampleMarshal
    k8sclient := sampleCoreClient answer
    client := sampleClient updateFault outcomes
    rand := fun n => n
    NewNameGenerator := fun n => if n = 0 then "a" else if n = 1 then "b" else "c" }

/-- The count 2 as an `int32`. -/
def two : Int32 := ⟨2, by decide, by decide⟩

/-- An AlreadyExists status error. -/
def errExists : Err := .status .AlreadyExists "x"

/-- An error that is not a status error. -/
def errOther : Err := .plain "boom"

/-- A stored builder under the sample builder name. -/
def builderA : CustomClusterBuilder :=
  { ObjectMeta := { Name := "demo-builder" }
    Spec := { CustomBuilderSpec := { Tag := "a", Stack := "s1", Store := "t1" } } }

/-- A new builder with another spec. -/
def builderB : CustomClusterBuilder :=
  { ObjectMeta := { Name := "demo-builder" }
    Spec := { CustomBuilderSpec := { Tag := "b", Stack := "s2", Store := "t2" } } }

/-! ## The job loop -/

theorem wrapInt_eq_self (x : Int) (h1 : -9223372036854775808 ≤ x)
    (h2 : x < 9223372036854775808) : wrapInt x = x := by
  unfold wrapInt
  omega

theorem randomSourceConfig_eq_pick (draw : Nat) :
    randomSourceConfig draw = some (pick draw) := by
  have h : draw % 4 = 0 ∨ draw % 4 = 1 ∨ draw % 4 = 2 ∨ draw % 4 = 3 := by omega
  rcases h with h | h | h | h <;>
    simp [randomSourceConfig, pick, Intn, sourceConfigs, imageTypes, h]

theorem pick_in_tables (draw : Nat) :
    ∃ i, i < 4 ∧ sourceConfigs[i]? = some (pick draw).1 ∧ imageTypes[i]? = some (pick draw).2 := by
  have h : draw % 4 = 0 ∨ draw % 4 = 1 ∨ draw % 4 = 2 ∨ draw % 4 = 3 := by omega
  rcases h with h | h | h | h
  · exact ⟨0, by decide, by simp [pick, h, sourceConfigs], by simp [pick, h, imageTypes]⟩
  · exact ⟨1, by decide, by simp [pick, h, sourceConfigs], by simp [pick, h, imageTypes]⟩
  · exact ⟨2, by decide, by simp [pick, h, sourceConfigs], by simp [pick, h, imageTypes]⟩
  · exact ⟨3, by decide, by simp [pick, h, sourceConfigs], by simp [pick, h, imageTypes]⟩

section loop
variable (d : Defaults) (rand : Nat → Nat) (nameGenerator : Nat → String) (client : Clientset)
  (c : config) (serviceAccount : ServiceAccount) (cache : Quantity)

theorem loop_exit (fuel : Nat) (i : Int) (w : World) (h : ¬ i ≤ c.count) :
    Populate.loop d rand nameGenerator client c serviceAccount cache fuel i w
      = .returned none w := by
  cases fuel <;> simp [Populate.loop, h]

theorem loop_zero (i : Int) (w : World) (h : i ≤ c.count) :
    Populate.loop d rand nameGenerator client c serviceAccount cache 0 i w = .outOfFuel w := by
  simp [Populate.loop, h]

theorem loop_created (fuel : Nat) (i : Int) (w : World) (h : i ≤ c.count) (h1 : 1 ≤ i)
    (hc : c.count ≤ 2147483647) (ho : client.CreateImage w.imageCreates = none) :
    Populate.loop d rand nameGenerator client c serviceAccount cache (fuel + 1) i w
      = Populate.loop d rand nameGenerator client c serviceAccount cache fuel (i + 1)
          (w.afterCreated d.Namespace (nextImage d rand nameGenerator c serviceAccount cache w)) := by
  rw [Populate.loop]
  simp only [h, if_true, randomSourceConfig_eq_pick, Clientset.createImage, ho]
  rw [wrapInt_eq_self (i + 1) (by omega) (by omega)]
  rfl

theorem loop_exists (fuel : Nat) (i : Int) (w : World) (h : i ≤ c.count) (h1 : 1 ≤ i)
    (hc : c.count ≤ 2147483647) (e : Err) (ho : client.CreateImage w.imageCreates = some e)
    (he : IsAlreadyExists (some e) = true) :
    Populate.loop d rand nameGenerator client c serviceAccount cache (fuel + 1) i w
      = Populate.loop d rand nameGenerator client c serviceAccount cache fuel i
          (w.afterRefused d.Namespace (nextImage d rand nameGenerator c serviceAccount cache w)) := by
  rw [Populate.loop]
  simp only [h, if_true, randomSourceConfig_eq_pick, Clientset.createImage, ho, he]
  rw [wrapInt_eq_self (i - 1) (by omega) (by omega), wrapInt_eq_self (i - 1 + 1) (by omega) (by omega)]
  simp [World.afterRefused, nextImage]

theorem loop_fatal (fuel : Nat) (i : Int) (w : World) (h : i ≤ c.count) (e : Err)
    (ho : client.CreateImage w.imageCreates = some e) (he : IsAlreadyExists (some e) = false) :
    Populate.loop d rand nameGenerator client c serviceAccount cache (fuel + 1) i w
      = .returned (some e)
          (w.afterRefused d.Namespace (nextImage d rand nameGenerator c serviceAccount cache w)) := by
  rw [Populate.loop]
  simp only [h, if_true, randomSourceConfig_eq_pick, Clientset.createImage, ho, he]
  simp [World.afterRefused, nextImage]

theorem loop_passes (hc : c.count ≤ 2147483647) (m : Nat) :
    ∀ (i : Int) (w : World), 1 ≤ i →
      (∀ j, j < m → client.CreateImage (w.imageCreates + j) = none ∨
        IsAlreadyExists (client.CreateImage (w.imageCreates + j)) = true) →
      (∀ j, j < m → i + successesBefore client.CreateImage w.imageCreates j ≤ c.count) →
      ∃ w1 : World,
        (∀ fuel, Populate.loop d rand nameGenerator client c serviceAccount cache (fuel + m) i w
          = Populate.loop d rand nameGenerator client c serviceAccount cache fuel
              (i + successesBefore client.CreateImage w.imageCreates m) w1) ∧
        w1.imageCreates = w.imageCreates + m ∧
        w1.images.length = w.images.length + successesBefore client.CreateImage w.imageCreates m ∧
        w.images <:+ w1.images ∧
        w1.builders = w.builders ∧ w1.secrets = w.secrets ∧
        w1.serviceAccounts = w.serviceAccounts := by
  induction m with
  | zero =>
    intro i w _ _ _
    exact ⟨w, by simp [successesBefore], rfl, by simp [successesBefore], List.suffix_refl _,
      rfl, rfl, rfl⟩
  | succ m ih =>
    intro i w h1 hout hin
    have hi : i ≤ c.count := by simpa [successesBefore] using hin 0 (Nat.succ_pos m)
    have hshift : ∀ j, j < m → client.CreateImage (w.imageCreates + 1 + j) = none ∨
        IsAlreadyExists (client.CreateImage (w.imageCreates + 1 + j)) = true := by
      intro j hj
      have := hout (j + 1) (by omega)
      rwa [show w.imageCreates + (j + 1) = w.imageCreates + 1 + j by omega] at this
    rcases hout 0 (Nat.succ_pos m) with h0 | h0
    · -- the call succeeds
      rw [Nat.add_zero] at h0
      have hin1 : ∀ j, j < m →
          i + 1 + successesBefore client.CreateImage (w.imageCreates + 1) j ≤ c.count := by
        intro j hj
        have := hin (j + 1) (by omega)
        simp only [successesBefore, h0, if_true] at this
        push_cast at this
        omega
      obtain ⟨w1, hrun, hn, hlen, hsuf, hb, hs, hsa⟩ :=
        ih (i + 1) (w.afterCreated d.Namespace
          (nextImage d rand nameGenerator c serviceAccount cache w)) (by omega) hshift hin1
      refine ⟨w1, ?_, ?_, ?_, ?_, hb, hs, hsa⟩
      · intro fuel
        rw [show fuel + (m + 1) = (fuel + m) + 1 by omega,
          loop_created d rand nameGenerator client c serviceAccount cache _ i w hi h1 hc h0,
          hrun fuel]
        simp only [successesBefore, h0, if_true, World.afterCreated]
        push_cast
        rw [show i + 1 + (successesBefore client.CreateImage (w.imageCreates + 1) m : Int)
          = i + (1 + (successesBefore client.CreateImage (w.imageCreates + 1) m : Int)) by omega]
      · simp only [World.afterCreated] at hn
        omega
      · simp only [World.afterCreated, List.length_cons] at hlen
        simp only [successesBefore, h0, if_true]
        omega
      · exact (List.suffix_cons _ _).trans hsuf
    · -- the call is answered AlreadyExists
      rw [Nat.add_zero] at h0
      obtain ⟨e, he⟩ : ∃ e, client.CreateImage w.imageCreates = some e := by
        cases hq : client.CreateImage w.imageCreates with
        | none => rw [hq] at h0; simp [IsAlreadyExists] at h0
        | some e => exact ⟨e, rfl⟩
      have hne : client.CreateImage w.imageCreates ≠ none := by simp [he]
      have hin1 : ∀ j, j < m →
          i + successesBefore client.CreateImage (w.imageCreates + 1) j ≤ c.count := by
        intro j hj
        have := hin (j + 1) (by omega)
        simp only [successesBefore, hne, if_false] at this
        push_cast at this
        omega
      obtain ⟨w1, hrun, hn, hlen, hsuf, hb, hs, hsa⟩ :=
        ih i (w.afterRefused d.Namespace
          (nextImage d rand nameGenerator c serviceAccount cache w)) h1 hshift hin1
      refine ⟨w1, ?_, ?_, ?_, ?_, hb, hs, hsa⟩
      · intro fuel
        rw [show fuel + (m + 1) = (fuel + m) + 1 by omega,
          loop_exists d rand nameGenerator client c serviceAccount cache _ i w hi h1 hc e he
            (by rw [← he]; exact h0),
          hrun fuel]
        simp only [successesBefore, hne, if_false, World.afterRefused]
        push_cast
        rw [show (0 : Int) + (successesBefore client.CreateImage (w.imageCreates + 1) m : Int)
          = (successesBefore client.CreateImage (w.imageCreates + 1) m : Int) by omega]
      · simp only [World.afterRefused] at hn
        omega
      · simp only [World.afterRefused] at hlen
        simp only [successesBefore, hne, if_false]
        omega
      · exact hsuf

theorem loop_returned_nil (hc : c.count ≤ 2147483647) (fuel : Nat) :
    ∀ (i : Int) (w w1 : World), 1 ≤ i → i ≤ c.count + 1 →
      Populate.loop d rand nameGenerator client c serviceAccount cache fuel i w
        = .returned none w1 →
      (w1.images.length : Int) + i = w.images.length + c.count + 1 ∧ w.images <:+ w1.images := by
  induction fuel with
  | zero =>
    intro i w w1 _ hle h
    by_cases hi : i ≤ c.count
    · rw [loop_zero d rand nameGenerator client c serviceAccount cache i w hi] at h
      cases h
    · rw [loop_exit d rand nameGenerator client c serviceAccount cache 0 i w hi] at h
      injection h with _ hw
      subst hw
      exact ⟨by omega, List.suffix_refl _⟩
  | succ fuel ih =>
    intro i w w1 h1 hle h
    by_cases hi : i ≤ c.count
    · cases ho : client.CreateImage w.imageCreates with
      | none =>
        rw [loop_created d rand nameGenerator client c serviceAccount cache fuel i w hi h1 hc ho]
          at h
        obtain ⟨hlen, hsuf⟩ := ih (i + 1) (w.afterCreated d.Namespace
          (nextImage d rand nameGenerator c serviceAccount cache w)) w1 (by omega) (by omega) h
        simp only [World.afterCreated, List.length_cons] at hlen
        refine ⟨by push_cast at hlen; omega, (List.suffix_cons _ _).trans hsuf⟩
      | some e =>
        cases he : IsAlreadyExists (some e) with
        | true =>
          rw [loop_exists d rand nameGenerator client c serviceAccount cache fuel i w hi h1 hc
            e ho he] at h
          have := ih i (w.afterRefused d.Namespace
            (nextImage d rand nameGenerator c serviceAccount cache w)) w1 h1 hle h
          simpa only [World.afterRefused] using this
        | false =>
          rw [loop_fatal d rand nameGenerator client c serviceAccount cache fuel i w hi e ho he]
            at h
          cases h
    · rw [loop_exit d rand nameGenerator client c serviceAccount cache _ i w hi] at h
      injection h with _ hw
      subst hw
      exact ⟨by omega, List.suffix_refl _⟩

theorem loop_frame (fuel : Nat) :
    ∀ (i : Int) (w : World),
      (Populate.loop d rand nameGenerator client c serviceAccount cache fuel i w).world.builders
        = w.builders ∧
      (Populate.loop d rand nameGenerator client c serviceAccount cache fuel i w).world.secrets
        = w.secrets ∧
      (Populate.loop d rand nameGenerator client c serviceAccount cache fuel i
        w).world.serviceAccounts = w.serviceAccounts ∧
      ∃ new : List Image,
        submittedImages
            (Populate.loop d rand nameGenerator client c serviceAccount cache fuel i w).world.calls
          = new ++ submittedImages w.calls ∧
        ∀ img, img ∈ new → ∃ name draw,
          img = newImage d c serviceAccount cache name (pick draw).1 (pick draw).2 := by
  induction fuel with
  | zero =>
    intro i w
    rw [Populate.loop]
    split <;> exact ⟨rfl, rfl, rfl, [], rfl, by simp⟩
  | succ fuel ih =>
    intro i w
    rw [Populate.loop]
    by_cases hi : i ≤ c.count
    · simp only [hi, if_true, randomSourceConfig_eq_pick, Clientset.createImage]
      cases ho : client.CreateImage w.imageCreates with
      | none =>
        simp only
        obtain ⟨hb, hs, hsa, new, hnew, hgood⟩ := ih (wrapInt (i + 1))
          (w.afterCreated d.Namespace (nextImage d rand nameGenerator c serviceAccount cache w))
        refine ⟨hb, hs, hsa, new ++ [nextImage d rand nameGenerator c serviceAccount cache w],
          ?_, ?_⟩
        · refine hnew.trans ?_
          simp [World.afterCreated, submittedImages]
        · intro img himg
          rcases List.mem_append.mp himg with h | h
          · exact hgood img h
          · exact ⟨nameGenerator w.imageCreates, rand w.imageCreates, by
              rw [List.mem_singleton.mp h]; rfl⟩
      | some e =>
        simp only
        cases he : IsAlreadyExists (some e) with
        | false =>
          exact ⟨rfl, rfl, rfl, [nextImage d rand nameGenerator c serviceAccount cache w],
            by simp [Run.world, submittedImages, nextImage],
            fun img h => ⟨nameGenerator w.imageCreates, rand w.imageCreates, by
              rw [List.mem_singleton.mp h]; rfl⟩⟩
        | true =>
          obtain ⟨hb, hs, hsa, new, hnew, hgood⟩ := ih (wrapInt (wrapInt (i - 1) + 1))
            (w.afterRefused d.Namespace (nextImage d rand nameGenerator c serviceAccount cache w))
          refine ⟨hb, hs, hsa, new ++ [nextImage d rand nameGenerator c serviceAccount cache w],
            ?_, ?_⟩
          · simp only [Bool.not_true, Bool.false_eq_true, if_false]
            refine hnew.trans ?_
            simp [World.afterRefused, submittedImages]
          · intro img himg
            rcases List.mem_append.mp himg with h | h
            · exact hgood img h
            · exact ⟨nameGenerator w.imageCreates, rand w.imageCreates, by
                rw [List.mem_singleton.mp h]; rfl⟩
    · simp only [hi, if_false]
      exact ⟨rfl, rfl, rfl, [], rfl, by simp⟩

theorem loop_calls (fuel : Nat) :
    ∀ (i : Int) (w : World),
      w.calls <:+
        (Populate.loop d rand nameGenerator client c serviceAccount cache fuel i w).world.calls := by
  induction fuel with
  | zero =>
    intro i w
    rw [Populate.loop]
    split <;> exact List.suffix_refl _
  | succ fuel ih =>
    intro i w
    rw [Populate.loop]
    by_cases hi : i ≤ c.count
    · simp only [hi, if_true, randomSourceConfig_eq_pick, Clientset.createImage]
      cases ho : client.CreateImage w.imageCreates with
      | none =>
        exact (List.suffix_cons _ _).trans (ih (wrapInt (i + 1))
          (w.afterCreated d.Namespace (nextImage d rand nameGenerator c serviceAccount cache w)))
      | some e =>
        simp only
        cases he : IsAlreadyExists (some e) with
        | false => exact List.suffix_cons _ _
        | true =>
          exact (List.suffix_cons _ _).trans (ih (wrapInt (wrapInt (i - 1) + 1))
            (w.afterRefused d.Namespace (nextImage d rand nameGenerator c serviceAccount cache w)))
    · simp only [hi, if_false]
      exact List.suffix_refl _

end loop

/-! ## Counting outcomes -/

theorem successesBefore_le (o : Nat → Option Err) (m : Nat) :
    ∀ base, successesBefore o base m ≤ m := by
  induction m with
  | zero => intro base; simp [successesBefore]
  | succ m ih =>
    intro base
    have := ih (base + 1)
    simp only [successesBefore]
    split <;> omega

theorem successesBefore_mono (o : Nat → Option Err) (j : Nat) :
    ∀ base m, j ≤ m → successesBefore o base j ≤ successesBefore o base m := by
  induction j with
  | zero => intro base m _; simp [successesBefore]
  | succ j ih =>
    intro base m hm
    obtain ⟨m1, rfl⟩ : ∃ m1, m = m1 + 1 := ⟨m - 1, by omega⟩
    have := ih (base + 1) m1 (by omega)
    simp only [successesBefore]
    omega

theorem successesBefore_after_refusals (o : Nat → Option Err) (j : Nat) :
    ∀ base k, (∀ t, t < k → o (base + t) ≠ none) → successesBefore o base j ≤ j - k := by
  induction j with
  | zero => intro base k _; simp [successesBefore]
  | succ j ih =>
    intro base k hk
    cases k with
    | zero => exact successesBefore_le o (j + 1) base
    | succ k =>
      have h0 : o base ≠ none := by simpa using hk 0 (Nat.succ_pos k)
      have := ih (base + 1) k (fun t ht => by
        have := hk (t + 1) (by omega)
        rwa [show base + (t + 1) = base + 1 + t by omega] at this)
      simp only [successesBefore, h0, if_false]
      omega

theorem successesBefore_all_created (o : Nat → Option Err) (n : Nat) :
    ∀ base, (∀ t, t < n → o (base + t) = none) → successesBefore o base n = n := by
  induction n with
  | zero => intro base _; simp [successesBefore]
  | succ n ih =>
    intro base hn
    have h0 : o base = none := by simpa using hn 0 (Nat.succ_pos n)
    have := ih (base + 1) (fun t ht => by
      have := hn (t + 1) (by omega)
      rwa [show base + (t + 1) = base + 1 + t by omega] at this)
    simp only [successesBefore, h0, if_true]
    omega

theorem successesBefore_refusals_then_created (o : Nat → Option Err) (n k : Nat) :
    ∀ base, (∀ t, t < k → o (base + t) ≠ none) →
      (∀ t, k ≤ t → t < k + n → o (base + t) = none) →
      successesBefore o base (k + n) = n := by
  induction k with
  | zero =>
    intro base _ hn
    rw [Nat.zero_add]
    exact successesBefore_all_created o n base (fun t ht => hn t (Nat.zero_le t) (by omega))
  | succ k ih =>
    intro base hk hn
    have h0 : o base ≠ none := by simpa using hk 0 (Nat.succ_pos k)
    have := ih (base + 1)
      (fun t ht => by
        have := hk (t + 1) (by omega)
        rwa [show base + (t + 1) = base + 1 + t by omega] at this)
      (fun t h1 h2 => by
        have := hn (t + 1) (by omega) (by omega)
        rwa [show base + (t + 1) = base + 1 + t by omega] at this)
    rw [show k + 1 + n = (k + n) + 1 by omega]
    simp only [successesBefore, h0, if_false]
    omega

theorem isAlreadyExists_ne_none (x : Option Err) (h : IsAlreadyExists x = true) : x ≠ none := by
  intro hx
  subst hx
  simp [IsAlreadyExists] at h

/-! ## The builder calls and `saveBuilder` -/

theorem mapGet_mapSet (m : List (String × String)) (k v : String) :
    mapGet (some (mapSet m k v)) k = some v := by
  simp [mapGet, mapSet, List.lookup]

theorem find_after_replace (n : String) (existing u : CustomClusterBuilder)
    (hu : u.ObjectMeta.Name = existing.ObjectMeta.Name) :
    ∀ l : List CustomClusterBuilder,
      l.find? (fun b => b.ObjectMeta.Name == n) = some existing →
      (l.map (fun x => if x.ObjectMeta.Name == u.ObjectMeta.Name then u else x)).find?
        (fun b => b.ObjectMeta.Name == n) = some u := by
  intro l
  induction l with
  | nil => intro h; simp at h
  | cons x xs ih =>
    intro h
    have hex : existing.ObjectMeta.Name = n := by simpa using List.find?_some h
    by_cases hx : x.ObjectMeta.Name = n
    · rw [List.map_cons, if_pos (by simpa [hu, hex] using hx), List.find?_cons_of_pos]
      simp [hu, hex]
    · rw [List.find?_cons_of_neg _ (by simpa using hx)] at h
      rw [List.map_cons, if_neg (by simpa [hu, hex] using hx),
        List.find?_cons_of_neg _ (by simpa using hx)]
      exact ih h

theorem getBuilder_world (client : Clientset) (name : String) (w : World) :
    (client.getBuilder name w).2 = { w with calls := .GetBuilder name :: w.calls } := by
  unfold Clientset.getBuilder
  repeat' split
  all_goals rfl

theorem getBuilder_ok (client : Clientset) (name : String) (w w1 : World)
    (existing : CustomClusterBuilder) (h : client.getBuilder name w = (.ok existing, w1)) :
    w.builders.find? (fun b => b.ObjectMeta.Name == name) = some existing ∧
    w1.builders = w.builders := by
  unfold Clientset.getBuilder at h
  repeat' split at h
  all_goals simp only [Prod.mk.injEq, Except.ok.injEq, reduceCtorEq, false_and] at h
  obtain ⟨h1, h2⟩ := h
  subst h1 h2
  rename_i hf
  exact ⟨hf, rfl⟩

theorem getBuilder_error_builders (client : Clientset) (name : String) (w w1 : World)
    (r : Except Err CustomClusterBuilder) (h : client.getBuilder name w = (r, w1)) :
    w1.builders = w.builders := by
  have := getBuilder_world client name w
  rw [h] at this
  simp only at this
  subst this
  rfl

theorem createBuilder_frame (client : Clientset) (b : CustomClusterBuilder) (w : World) :
    (client.createBuilder b w).2.images = w.images ∧
    (client.createBuilder b w).2.imageCreates = w.imageCreates ∧
    (client.createBuilder b w).2.secrets = w.secrets ∧
    (client.createBuilder b w).2.serviceAccounts = w.serviceAccounts ∧
    (client.createBuilder b w).2.calls = .CreateBuilder b :: w.calls := by
  unfold Clientset.createBuilder
  repeat' split
  all_goals simp

theorem createBuilder_ok (client : Clientset) (b created : CustomClusterBuilder) (w w1 : World)
    (h : client.createBuilder b w = (.ok created, w1)) :
    w1.builders = b :: w.builders := by
  unfold Clientset.createBuilder at h
  repeat' split at h
  all_goals simp only [Prod.mk.injEq, Except.ok.injEq, reduceCtorEq, false_and] at h
  obtain ⟨_, h2⟩ := h
  subst h2
  rfl

theorem updateBuilder_frame (client : Clientset) (b : CustomClusterBuilder) (w : World) :
    (client.updateBuilder b w).2.images = w.images ∧
    (client.updateBuilder b w).2.imageCreates = w.imageCreates ∧
    (client.updateBuilder b w).2.secrets = w.secrets ∧
    (client.updateBuilder b w).2.serviceAccounts = w.serviceAccounts ∧
    (client.updateBuilder b w).2.calls = .UpdateBuilder b :: w.calls := by
  unfold Clientset.updateBuilder
  repeat' split
  all_goals simp

theorem updateBuilder_ok (client : Clientset) (b updated : CustomClusterBuilder) (w w1 : World)
    (h : client.updateBuilder b w = (.ok updated, w1)) :
    w1.builders
      = w.builders.map (fun x => if x.ObjectMeta.Name == b.ObjectMeta.Name then b else x) := by
  unfold Clientset.updateBuilder at h
  repeat' split at h
  all_goals simp only [Prod.mk.injEq, Except.ok.injEq, reduceCtorEq, false_and] at h
  obtain ⟨_, h2⟩ := h
  subst h2
  rfl

section saveBuilder
variable (d : Defaults) (marshal : CustomClusterBuilderSpec → Except Err String)
  (client : Clientset) (builder : CustomClusterBuilder) (w : World)

theorem saveBuilder_get_failed (err : Err) (w1 : World)
    (hg : client.getBuilder d.BuilderName w = (.error err, w1))
    (hnf : IsNotFound (some err) = false) :
    saveBuilder d marshal client builder w = (some err, w1) := by
  simp [saveBuilder, hg, hnf]

theorem saveBuilder_create (err : Err) (w1 : World)
    (hg : client.getBuilder d.BuilderName w = (.error err, w1))
    (hnf : IsNotFound (some err) = true) :
    saveBuilder d marshal client builder w
      = (errOf (client.createBuilder builder w1).1, (client.createBuilder builder w1).2) := by
  simp [saveBuilder, hg, hnf]

theorem saveBuilder_marshal_failed (existingBuilder : CustomClusterBuilder) (w1 : World)
    (hg : client.getBuilder d.BuilderName w = (.ok existingBuilder, w1)) (err : Err)
    (hm : marshal existingBuilder.Spec = .error err) :
    saveBuilder d marshal client builder w = (some err, w1) := by
  simp [saveBuilder, hg, hm]

theorem saveBuilder_update (existingBuilder : CustomClusterBuilder) (w1 : World)
    (hg : client.getBuilder d.BuilderName w = (.ok existingBuilder, w1)) (oldSpec : String)
    (hm : marshal existingBuilder.Spec = .ok oldSpec) :
    saveBuilder d marshal client builder w
      = (none, (client.updateBuilder (updatedBuilder d existingBuilder builder oldSpec) w1).2) := by
  simp [saveBuilder, hg, hm, updatedBuilder]

theorem saveBuilder_frame :
    (saveBuilder d marshal client builder w).2.images = w.images ∧
    (saveBuilder d marshal client builder w).2.imageCreates = w.imageCreates ∧
    (saveBuilder d marshal client builder w).2.secrets = w.secrets ∧
    (saveBuilder d marshal client builder w).2.serviceAccounts = w.serviceAccounts ∧
    submittedImages (saveBuilder d marshal client builder w).2.calls = submittedImages w.calls := by
  have hw := getBuilder_world client d.BuilderName w
  rcases hg : client.getBuilder d.BuilderName w with ⟨res, w1⟩
  rw [hg] at hw
  simp only at hw
  subst hw
  cases res with
  | error err =>
    cases hnf : IsNotFound (some err) with
    | false =>
      rw [saveBuilder_get_failed d marshal client builder w err _ hg hnf]
      simp [submittedImages]
    | true =>
      rw [saveBuilder_create d marshal client builder w err _ hg hnf]
      obtain ⟨h1, h2, h3, h4, h5⟩ := createBuilder_frame client builder
        { w with calls := .GetBuilder d.BuilderName :: w.calls }
      simp [h1, h2, h3, h4, h5, submittedImages]
  | ok existingBuilder =>
    cases hm : marshal existingBuilder.Spec with
    | error err =>
      rw [saveBuilder_marshal_failed d marshal client builder w existingBuilder _ hg err hm]
      simp [submittedImages]
    | ok oldSpec =>
      rw [saveBuilder_update d marshal client builder w existingBuilder _ hg oldSpec hm]
      obtain ⟨h1, h2, h3, h4, h5⟩ := updateBuilder_frame client
        (updatedBuilder d existingBuilder builder oldSpec)
        { w with calls := .GetBuilder d.BuilderName :: w.calls }
      simp [h1, h2, h3, h4, h5, submittedImages]

end saveBuilder

theorem saveBuilder_result (d : Defaults) (marshal : CustomClusterBuilderSpec → Except Err String)
    (client : Clientset) (builder : CustomClusterBuilder) (w w1 : World) (r : Option Err)
    (h : saveBuilder d marshal client builder w = (r, w1)) :
    w1.images = w.images ∧ w1.imageCreates = w.imageCreates ∧ w1.secrets = w.secrets ∧
    w1.serviceAccounts = w.serviceAccounts ∧
    submittedImages w1.calls = submittedImages w.calls := by
  have := saveBuilder_frame d marshal client builder w
  rwa [h] at this

theorem saveBuilder_calls (d : Defaults) (marshal : CustomClusterBuilderSpec → Except Err String)
    (client : Clientset) (builder : CustomClusterBuilder) (w : World) :
    w.calls <:+ (saveBuilder d marshal client builder w).2.calls := by
  have hw := getBuilder_world client d.BuilderName w
  rcases hg : client.getBuilder d.BuilderName w with ⟨res, w1⟩
  rw [hg] at hw
  simp only at hw
  subst hw
  cases res with
  | error err =>
    cases hnf : IsNotFound (some err) with
    | false =>
      rw [saveBuilder_get_failed d marshal client builder w err _ hg hnf]
      exact List.suffix_cons _ _
    | true =>
      rw [saveBuilder_create d marshal client builder w err _ hg hnf]
      have h := (createBuilder_frame client builder
        { w with calls := .GetBuilder d.BuilderName :: w.calls }).2.2.2.2
      simp only at h ⊢
      rw [h]
      exact (List.suffix_cons _ _).trans (List.suffix_cons _ _)
  | ok existingBuilder =>
    cases hm : marshal existingBuilder.Spec with
    | error err =>
      rw [saveBuilder_marshal_failed d marshal client builder w existingBuilder _ hg err hm]
      exact List.suffix_cons _ _
    | ok oldSpec =>
      rw [saveBuilder_update d marshal client builder w existingBuilder _ hg oldSpec hm]
      have h := (updateBuilder_frame client (updatedBuilder d existingBuilder builder oldSpec)
        { w with calls := .GetBuilder d.BuilderName :: w.calls }).2.2.2.2
      simp only at h ⊢
      rw [h]
      exact (List.suffix_cons _ _).trans (List.suffix_cons _ _)

theorem saveBuilder_calls_result (d : Defaults)
    (marshal : CustomClusterBuilderSpec → Except Err String) (client : Clientset)
    (builder : CustomClusterBuilder) (w w1 : World) (r : Option Err)
    (h : saveBuilder d marshal client builder w = (r, w1)) : w.calls <:+ w1.calls := by
  have := saveBuilder_calls d marshal client builder w
  rwa [h] at this

/-! ## The steps before the job loop -/

theorem loadConfig_frame (env : Env) (count : Int32) (imageTag : String) (w : World) :
    (loadConfig env count imageTag w).2.images = w.images ∧
    (loadConfig env count imageTag w).2.imageCreates = w.imageCreates ∧
    (loadConfig env count imageTag w).2.secrets = w.secrets ∧
    (loadConfig env count imageTag w).2.serviceAccounts = w.serviceAccounts ∧
    (loadConfig env count imageTag w).2.builders = w.builders ∧
    submittedImages (loadConfig env count imageTag w).2.calls = submittedImages w.calls := by
  unfold loadConfig
  repeat' split
  all_goals simp [submittedImages]

theorem loadConfig_ok (env : Env) (count : Int32) (imageTag : String) (w w1 : World)
    (c : config) (h : loadConfig env count imageTag w = ((c, none), w1)) :
    c.count = count.val ∧ c.imageTag = imageTag := by
  unfold loadConfig at h
  repeat' split at h
  all_goals simp only [Prod.mk.injEq, reduceCtorEq, and_false, false_and] at h
  all_goals
    obtain ⟨⟨h, _⟩, _⟩ := h
    subst h
    exact ⟨rfl, rfl⟩

theorem createNamespace_world (k : CoreClient) (obj : Namespace) (w : World) :
    (k.createNamespace obj w).2 = { w with calls := .CreateNamespace obj :: w.calls } := rfl

theorem createNamespace_result (k : CoreClient) (obj : Namespace) (w w1 : World)
    (r : Except Err Namespace) (h : k.createNamespace obj w = (r, w1)) :
    w1.images = w.images ∧ w1.imageCreates = w.imageCreates ∧ w1.secrets = w.secrets ∧
    w1.serviceAccounts = w.serviceAccounts ∧ w1.builders = w.builders ∧
    submittedImages w1.calls = submittedImages w.calls := by
  have := createNamespace_world k obj w
  rw [h] at this
  simp only at this
  subst this
  simp [submittedImages]

theorem createSecret_frame (k : CoreClient) (ns : String) (s : Secret) (w : World) :
    (k.createSecret ns s w).2.images = w.images ∧
    (k.createSecret ns s w).2.imageCreates = w.imageCreates ∧
    (k.createSecret ns s w).2.serviceAccounts = w.serviceAccounts ∧
    (k.createSecret ns s w).2.builders = w.builders ∧
    (k.createSecret ns s w).2.calls = .CreateSecret ns s :: w.calls := by
  unfold CoreClient.createSecret
  repeat' split
  all_goals simp

theorem createSecret_result (k : CoreClient) (ns : String) (s : Secret) (w w1 : World)
    (r : Except Err Secret) (h : k.createSecret ns s w = (r, w1)) :
    w1.images = w.images ∧ w1.imageCreates = w.imageCreates ∧
    w1.serviceAccounts = w.serviceAccounts ∧ w1.builders = w.builders ∧
    w1.calls = .CreateSecret ns s :: w.calls := by
  have := createSecret_frame k ns s w
  rwa [h] at this

theorem createServiceAccount_frame (k : CoreClient) (ns : String) (sa : ServiceAccount)
    (w : World) :
    (k.createServiceAccount ns sa w).2.images = w.images ∧
    (k.createServiceAccount ns sa w).2.imageCreates = w.imageCreates ∧
    (k.createServiceAccount ns sa w).2.secrets = w.secrets ∧
    (k.createServiceAccount ns sa w).2.builders = w.builders ∧
    (k.createServiceAccount ns sa w).2.calls = .CreateServiceAccount ns sa :: w.calls := by
  unfold CoreClient.createServiceAccount
  repeat' split
  all_goals simp

theorem createServiceAccount_result (k : CoreClient) (ns : String) (sa : ServiceAccount)
    (w w1 : World) (r : Except Err ServiceAccount)
    (h : k.createServiceAccount ns sa w = (r, w1)) :
    w1.images = w.images ∧ w1.imageCreates = w.imageCreates ∧ w1.secrets = w.secrets ∧
    w1.builders = w.builders ∧ w1.calls = .CreateServiceAccount ns sa :: w.calls := by
  have := createServiceAccount_frame k ns sa w
  rwa [h] at this

theorem createServiceAccount_ok (k : CoreClient) (ns : String) (sa : ServiceAccount)
    (w w1 : World) (serviceAccount : ServiceAccount)
    (h : k.createServiceAccount ns sa w = (.ok serviceAccount, w1)) :
    w1.serviceAccounts = serviceAccount :: w.serviceAccounts := by
  unfold CoreClient.createServiceAccount at h
  repeat' split at h
  all_goals simp at h
  obtain ⟨h1, h2⟩ := h
  subst h1 h2
  rfl

theorem afterNamespace_frame (d : Defaults) (env : Env) (c : config) (order : Order)
    (cacheSize : String) (w : World) :
    (Populate.afterNamespace d env c order cacheSize w).2.images = w.images ∧
    (Populate.afterNamespace d env c order cacheSize w).2.imageCreates = w.imageCreates ∧
    submittedImages (Populate.afterNamespace d env c order cacheSize w).2.calls
      = submittedImages w.calls := by
  unfold Populate.afterNamespace
  split
  · rename_i err w3 hs
    have h := createSecret_result _ _ _ _ _ _ hs
    simp [h.1, h.2.1, h.2.2.2.2, submittedImages]
  · rename_i secret w3 hs
    have h := createSecret_result _ _ _ _ _ _ hs
    split
    · rename_i err w4 hsa
      have h4 := createServiceAccount_result _ _ _ _ _ _ hsa
      simp [h.1, h.2.1, h.2.2.2.2, h4.1, h4.2.1, h4.2.2.2.2, submittedImages]
    · rename_i serviceAccount w4 hsa
      have h4 := createServiceAccount_result _ _ _ _ _ _ hsa
      have hcalls : submittedImages w4.calls = submittedImages w.calls := by
        simp [h.2.2.2.2, h4.2.2.2.2, submittedImages]
      split
      · rename_i err w5 hb
        have h5 := saveBuilder_result _ _ _ _ _ _ _ hb
        simp [h5.1, h5.2.1, h5.2.2.2.2, h4.1, h4.2.1, h.1, h.2.1, hcalls]
      · rename_i w5 hb
        have h5 := saveBuilder_result _ _ _ _ _ _ _ hb
        split <;> simp [h5.1, h5.2.1, h5.2.2.2.2, h4.1, h4.2.1, h.1, h.2.1, hcalls]

theorem afterNamespace_ok (d : Defaults) (env : Env) (c : config) (order : Order)
    (cacheSize : String) (w w5 : World) (c1 : config) (serviceAccount : ServiceAccount)
    (cache : Quantity)
    (h : Populate.afterNamespace d env c order cacheSize w = (.ok (c1, serviceAccount, cache), w5)) :
    c1 = c ∧ w5.serviceAccounts = serviceAccount :: w.serviceAccounts := by
  unfold Populate.afterNamespace at h
  split at h
  · simp at h
  · rename_i secret w3 hs
    have h3 := createSecret_result _ _ _ _ _ _ hs
    split at h
    · simp at h
    · rename_i sa w4 hsa
      have h4 := createServiceAccount_ok env.k8sclient _ _ w3 w4 sa hsa
      split at h
      · simp at h
      · rename_i w5a hb
        have h5 := saveBuilder_result _ _ _ _ _ _ _ hb
        split at h
        · simp at h
        · simp only [Prod.mk.injEq, Except.ok.injEq] at h
          obtain ⟨⟨hc, hsa1, _⟩, hw⟩ := h
          subst hc hsa1 hw
          exact ⟨rfl, by rw [h5.2.2.2.1, h4, h3.2.2.1]⟩

theorem afterNamespace_issues_secret (d : Defaults) (env : Env) (c : config) (order : Order)
    (cacheSize : String) (w : World) :
    Call.CreateSecret d.Namespace (registrySecret c) :: w.calls
      <:+ (Populate.afterNamespace d env c order cacheSize w).2.calls := by
  unfold Populate.afterNamespace registrySecret
  split
  · rename_i err w3 hs
    have h := createSecret_result _ _ _ _ _ _ hs
    simp only
    rw [h.2.2.2.2]
  · rename_i secret w3 hs
    have h := createSecret_result _ _ _ _ _ _ hs
    split
    · rename_i err w4 hsa
      have h4 := createServiceAccount_result _ _ _ _ _ _ hsa
      simp only
      rw [h4.2.2.2.2, h.2.2.2.2]
      exact List.suffix_cons _ _
    · rename_i serviceAccount w4 hsa
      have h4 := createServiceAccount_result _ _ _ _ _ _ hsa
      have hcalls : Call.CreateSecret d.Namespace (registrySecret c) :: w.calls <:+ w4.calls := by
        rw [h4.2.2.2.2, h.2.2.2.2]
        exact List.suffix_cons _ _
      split
      · rename_i err w5 hb
        exact hcalls.trans (saveBuilder_calls_result _ _ _ _ _ _ _ hb)
      · rename_i w5 hb
        split <;> exact hcalls.trans (saveBuilder_calls_result _ _ _ _ _ _ _ hb)

theorem setup_frame (d : Defaults) (env : Env) (count : Int32) (order : Order)
    (imageTag cacheSize : String) (w : World) :
    (Populate.setup d env count order imageTag cacheSize w).2.images = w.images ∧
    (Populate.setup d env count order imageTag cacheSize w).2.imageCreates = w.imageCreates ∧
    submittedImages (Populate.setup d env count order imageTag cacheSize w).2.calls
      = submittedImages w.calls := by
  unfold Populate.setup
  split
  · exact ⟨rfl, rfl, rfl⟩
  split
  · exact ⟨rfl, rfl, rfl⟩
  split
  · exact ⟨rfl, rfl, rfl⟩
  have hl := loadConfig_frame env count imageTag w
  split
  · rename_i hlc
    rw [hlc] at hl
    exact ⟨hl.1, hl.2.1, hl.2.2.2.2.2⟩
  · rename_i c w1 hlc
    rw [hlc] at hl
    simp only at hl
    split
    · rename_i err w2 hns
      have hn := createNamespace_result _ _ _ _ _ hns
      have ha := afterNamespace_frame d env c order cacheSize w2
      split
      · exact ⟨hn.1.trans hl.1, hn.2.1.trans hl.2.1, hn.2.2.2.2.2.trans hl.2.2.2.2.2⟩
      · exact ⟨ha.1.trans (hn.1.trans hl.1), ha.2.1.trans (hn.2.1.trans hl.2.1),
          ha.2.2.trans (hn.2.2.2.2.2.trans hl.2.2.2.2.2)⟩
    · rename_i ns w2 hns
      have hn := createNamespace_result _ _ _ _ _ hns
      have ha := afterNamespace_frame d env c order cacheSize w2
      exact ⟨ha.1.trans (hn.1.trans hl.1), ha.2.1.trans (hn.2.1.trans hl.2.1),
        ha.2.2.trans (hn.2.2.2.2.2.trans hl.2.2.2.2.2)⟩

theorem setup_ok (d : Defaults) (env : Env) (count : Int32) (order : Order)
    (imageTag cacheSize : String) (w w0 : World) (c : config) (serviceAccount : ServiceAccount)
    (cache : Quantity)
    (h : Populate.setup d env count order imageTag cacheSize w
      = (.ok (c, serviceAccount, cache), w0)) :
    c.count = count.val ∧ c.imageTag = imageTag ∧
    w0.serviceAccounts = serviceAccount :: w.serviceAccounts ∧
    w0.images = w.images ∧ w0.imageCreates = w.imageCreates ∧
    submittedImages w0.calls = submittedImages w.calls := by
  have hfr := setup_frame d env count order imageTag cacheSize w
  rw [h] at hfr
  refine ⟨?_, ?_, ?_, hfr.1, hfr.2.1, hfr.2.2⟩
  all_goals
    unfold Populate.setup at h
    split at h
    · simp at h
    split at h
    · simp at h
    split at h
    · simp at h
    have hl := loadConfig_frame env count imageTag w
    split at h
    · simp at h
    rename_i c1 w1 hlc
    rw [hlc] at hl
    simp only at hl
    have hc := loadConfig_ok env count imageTag w w1 c1 hlc
    have key : ∀ w2 : World, w2.serviceAccounts = w.serviceAccounts →
        Populate.afterNamespace d env c1 order cacheSize w2 = (.ok (c, serviceAccount, cache), w0) →
        c.count = count.val ∧ c.imageTag = imageTag ∧
          w0.serviceAccounts = serviceAccount :: w.serviceAccounts := by
      intro w2 hw2 ha
      obtain ⟨hcc, hsa⟩ := afterNamespace_ok d env c1 order cacheSize w2 w0 c serviceAccount cache ha
      subst hcc
      exact ⟨hc.1, hc.2, by rw [hsa, hw2]⟩
    split at h
    · rename_i err w2 hns
      have hn := createNamespace_result _ _ _ _ _ hns
      split at h
      · simp at h
      · first
          | exact (key w2 (hn.2.2.2.1.trans hl.2.2.2.1) h).1
          | exact (key w2 (hn.2.2.2.1.trans hl.2.2.2.1) h).2.1
          | exact (key w2 (hn.2.2.2.1.trans hl.2.2.2.1) h).2.2
    · rename_i ns w2 hns
      have hn := createNamespace_result _ _ _ _ _ hns
      first
        | exact (key w2 (hn.2.2.2.1.trans hl.2.2.2.1) h).1
        | exact (key w2 (hn.2.2.2.1.trans hl.2.2.2.1) h).2.1
        | exact (key w2 (hn.2.2.2.1.trans hl.2.2.2.1) h).2.2

theorem setup_past_namespace (d : Defaults) (env : Env) (count : Int32) (order : Order)
    (imageTag cacheSize : String) (w w1 : World) (c : config)
    (h1 : env.BuildConfigFromFlags = none) (h2 : env.KubernetesNewForConfig = none)
    (h3 : env.VersionedNewForConfig = none)
    (hload : loadConfig env count imageTag w = ((c, none), w1))
    (hns : IsAlreadyExists
        (errOf (env.k8sclient.CreateNamespace { ObjectMeta := { Name := d.Namespace } })) = true ∨
      errOf (env.k8sclient.CreateNamespace { ObjectMeta := { Name := d.Namespace } }) = none) :
    Populate.setup d env count order imageTag cacheSize w
      = Populate.afterNamespace d env c order cacheSize
          { w1 with
            calls := .CreateNamespace { ObjectMeta := { Name := d.Namespace } } :: w1.calls } := by
  simp only [Populate.setup, h1, h2, h3, hload, CoreClient.createNamespace]
  cases hr : env.k8sclient.CreateNamespace { ObjectMeta := { Name := d.Namespace } } with
  | error err =>
    rw [hr] at hns
    simp only [errOf, reduceCtorEq, or_false] at hns
    simp [hns]
  | ok obj => rfl

theorem Populate_of_setup_ok (d : Defaults) (env : Env) (fuel : Nat) (count : Int32)
    (order : Order) (imageTag cacheSize : String) (w w0 : World) (c : config)
    (serviceAccount : ServiceAccount) (cache : Quantity)
    (h : Populate.setup d env count order imageTag cacheSize w
      = (.ok (c, serviceAccount, cache), w0)) :
    Populate d env fuel count order imageTag cacheSize w
      = Populate.loop d env.rand env.NewNameGenerator env.client c serviceAccount cache fuel 1
          w0 := by
  simp [Populate, h]

theorem Populate_of_setup_error (d : Defaults) (env : Env) (fuel : Nat) (count : Int32)
    (order : Order) (imageTag cacheSize : String) (w w0 : World) (err : Err)
    (h : Populate.setup d env count order imageTag cacheSize w = (.error err, w0)) :
    Populate d env fuel count order imageTag cacheSize w = .returned (some err) w0 := by
  simp [Populate, h]

theorem Populate_calls_of_setup (d : Defaults) (env : Env) (fuel : Nat) (count : Int32)
    (order : Order) (imageTag cacheSize : String) (w : World) :
    (Populate.setup d env count order imageTag cacheSize w).2.calls
      <:+ (Populate d env fuel count order imageTag cacheSize w).world.calls := by
  rcases hs : Populate.setup d env count order imageTag cacheSize w with ⟨res, w0⟩
  cases res with
  | error err =>
    rw [Populate_of_setup_error d env fuel count order imageTag cacheSize w w0 err hs]
    exact List.suffix_refl _
  | ok r =>
    obtain ⟨c, serviceAccount, cache⟩ := r
    rw [Populate_of_setup_ok d env fuel count order imageTag cacheSize w w0 c serviceAccount
      cache hs]
    exact loop_calls d env.rand env.NewNameGenerator env.client c serviceAccount cache fuel 1 w0

/-! ## The claims -/

/-- C1: for every count `N ≥ 0`, if `Populate` returns `nil` then exactly `N` image
resources were successfully created by the run (the images created before are still
there, and `N` more), whatever the outcomes of the image Create calls were; in
particular when every outcome is a success or an AlreadyExists error, however many of
the latter were interleaved. -/
theorem C1_exactly_count_images_created (d : Defaults) (env : Env) (fuel : Nat)
    (count : Int32) (order : Order) (imageTag cacheSize : String) (w w1 : World)
    (hN : 0 ≤ count.val)
    (hret : Populate d env fuel count order imageTag cacheSize w = .returned none w1) :
    w1.images.length = w.images.length + count.val.toNat ∧ w.images <:+ w1.images := by
  rcases hs : Populate.setup d env count order imageTag cacheSize w with ⟨res, w0⟩
  cases res with
  | error err =>
    rw [Populate_of_setup_error d env fuel count order imageTag cacheSize w w0 err hs] at hret
    cases hret
  | ok r =>
    obtain ⟨c, serviceAccount, cache⟩ := r
    rw [Populate_of_setup_ok d env fuel count order imageTag cacheSize w w0 c serviceAccount
      cache hs] at hret
    obtain ⟨hc, _, _, himg, _, _⟩ :=
      setup_ok d env count order imageTag cacheSize w w0 c serviceAccount cache hs
    have hhi := count.hi
    obtain ⟨hlen, hsuf⟩ := loop_returned_nil d env.rand env.NewNameGenerator env.client c
      serviceAccount cache (by omega) fuel 1 w0 w1 (by omega) (by omega) hret
    rw [himg] at hlen hsuf
    refine ⟨?_, hsuf⟩
    have := Int.toNat_of_nonneg hN
    omega

theorem C1_exactly_count_images_created_witness :
    (0 : Int) ≤ two.val ∧
    (Populate sampleDefaults
          (sampleEnv none none (fun n => if n = 1 then some errExists else none)) 3 two {}
          "r.io/app" "1Gi" {}).world.images.length = 0 + 2 :=
  ⟨by decide,
    (C1_exactly_count_images_created sampleDefaults
      (sampleEnv none none (fun n => if n = 1 then some errExists else none)) 3 two {}
      "r.io/app" "1Gi" {} _ (by decide) rfl).1⟩

/-- C2: `saveBuilder` on the builder store.  (a) If the lookup of the fixed builder
name reports NotFound and the Create call succeeds, `saveBuilder` returns `nil` and
the store afterwards holds the given builder, found under its name with the new spec.
(b) If the lookup finds an existing builder with spec `S_old`, whose JSON
serialization is `oldSpec`, and the Update call succeeds, `saveBuilder` returns `nil`,
the builder stored under the fixed name afterwards has the new builder's spec, and its
annotation `defaults.OldSpecAnnotation` is `oldSpec`, from which any decoder that
inverts the serializer gets `S_old` back. -/
theorem C2_saveBuilder_creates_or_updates (d : Defaults)
    (marshal : CustomClusterBuilderSpec → Except Err String) (client : Clientset)
    (builder : CustomClusterBuilder) (w : World) :
    (∀ (err : Err) (w1 w2 : World) (created : CustomClusterBuilder),
      client.getBuilder d.BuilderName w = (.error err, w1) →
      IsNotFound (some err) = true →
      client.createBuilder builder w1 = (.ok created, w2) →
      saveBuilder d marshal client builder w = (none, w2) ∧
      w2.builders = builder :: w.builders ∧
      w2.builders.find? (fun b => b.ObjectMeta.Name == builder.ObjectMeta.Name)
        = some builder) ∧
    (∀ (existing updated : CustomClusterBuilder) (w1 w2 : World) (oldSpec : String),
      client.getBuilder d.BuilderName w = (.ok existing, w1) →
      marshal existing.Spec = .ok oldSpec →
      client.updateBuilder (updatedBuilder d existing builder oldSpec) w1 = (.ok updated, w2) →
      saveBuilder d marshal client builder w = (none, w2) ∧
      ∃ stored : CustomClusterBuilder,
        w2.builders.find? (fun b => b.ObjectMeta.Name == d.BuilderName) = some stored ∧
        stored.Spec = builder.Spec ∧
        mapGet stored.ObjectMeta.Annotations d.OldSpecAnnotation = some oldSpec ∧
        ∀ unmarshal : String → Option CustomClusterBuilderSpec,
          (∀ s j, marshal s = .ok j → unmarshal j = some s) →
          (mapGet stored.ObjectMeta.Annotations d.OldSpecAnnotation).bind unmarshal
            = some existing.Spec) := by
  constructor
  · intro err w1 w2 created hg hnf hcr
    have hb := createBuilder_ok client builder created w1 w2 hcr
    rw [getBuilder_error_builders client _ w w1 _ hg] at hb
    refine ⟨?_, hb, ?_⟩
    · rw [saveBuilder_create d marshal client builder w err w1 hg hnf, hcr]
      rfl
    · rw [hb]
      simp [List.find?]
  · intro existing updated w1 w2 oldSpec hg hm hup
    obtain ⟨hfind, hb1⟩ := getBuilder_ok client _ w w1 existing hg
    have hb := updateBuilder_ok client _ updated w1 w2 hup
    rw [hb1] at hb
    refine ⟨?_, updatedBuilder d existing builder oldSpec, ?_, rfl, ?_, ?_⟩
    · rw [saveBuilder_update d marshal client builder w existing w1 hg oldSpec hm, hup]
    · rw [hb]
      exact find_after_replace d.BuilderName existing (updatedBuilder d existing builder oldSpec) rfl
        w.builders hfind
    · exact mapGet_mapSet _ _ _
    · intro unmarshal hinv
      have : mapGet (updatedBuilder d existing builder oldSpec).ObjectMeta.Annotations
          d.OldSpecAnnotation = some oldSpec := mapGet_mapSet _ _ _
      rw [this]
      exact hinv _ _ hm

theorem C2_saveBuilder_creates_or_updates_witness :
    ∃ w2 : World,
      saveBuilder sampleDefaults sampleMarshal (sampleClient none (fun _ => none)) builderB
        { builders := [builderA] } = (none, w2) ∧
      ∃ stored : CustomClusterBuilder,
        w2.builders.find? (fun b => b.ObjectMeta.Name == sampleDefaults.BuilderName)
          = some stored ∧
        stored.Spec = builderB.Spec ∧
        mapGet stored.ObjectMeta.Annotations sampleDefaults.OldSpecAnnotation = some "a,s1,t1" :=
  have h := (C2_saveBuilder_creates_or_updates sampleDefaults sampleMarshal
    (sampleClient none (fun _ => none)) builderB { builders := [builderA] }).2
    builderA _ _ _ "a,s1,t1" rfl rfl rfl
  ⟨_, h.1, h.2.elim fun stored hs => ⟨stored, hs.1, hs.2.1, hs.2.2.1⟩⟩

/-- C3 (the code departs from it): the store holds a builder and the Update call on it
fails with an error; `saveBuilder` returns `nil`, not that error, the stored builder
keeps its old spec, and `Populate` goes on to create its images and returns `nil`. -/
theorem C3_update_error_is_dropped :
    (Clientset.updateBuilder (sampleClient (some errOther) (fun _ => none))
        (updatedBuilder sampleDefaults builderA builderB "a,s1,t1")
        { builders := [builderA], calls := [.GetBuilder "demo-builder"] }).1
      = .error errOther ∧
    saveBuilder sampleDefaults sampleMarshal (sampleClient (some errOther) (fun _ => none))
        builderB { builders := [builderA] }
      = (none,
          { builders := [builderA]
            calls :=
              [.UpdateBuilder (updatedBuilder sampleDefaults builderA builderB "a,s1,t1"),
               .GetBuilder "demo-builder"] }) ∧
    ∃ w1 : World,
      Populate sampleDefaults (sampleEnv none (some errOther) (fun _ => none)) 3 two {}
        "r.io/app" "1Gi" { builders := [builderA] } = .returned none w1 ∧
      w1.builders = [builderA] ∧ w1.images.length = 2 :=
  ⟨rfl, rfl, _, rfl, rfl, rfl⟩

/-- C4: starting from a store with no builder, two calls of `saveBuilder` in sequence,
with builders of the fixed name and specs `S1` and then `S2`, all API calls succeeding
(`j1` being the JSON serialization of `S1`), both return `nil` and leave exactly one
builder in the store: it has the fixed builder name, its live spec is `S2` and its
annotation `defaults.OldSpecAnnotation` holds `j1`. -/
theorem C4_saveBuilder_twice (d : Defaults)
    (marshal : CustomClusterBuilderSpec → Except Err String) (client : Clientset)
    (b1 b2 : CustomClusterBuilder) (w : World) (j1 : String)
    (hstore : w.builders = [])
    (hget : client.GetFault = none) (hcreate : client.CreateFault = none)
    (hupdate : client.UpdateFault = none)
    (hname : b1.ObjectMeta.Name = d.BuilderName)
    (hm : marshal b1.Spec = .ok j1) :
    (saveBuilder d marshal client b1 w).1 = none ∧
    (saveBuilder d marshal client b2 (saveBuilder d marshal client b1 w).2).1 = none ∧
    ∃ stored : CustomClusterBuilder,
      (saveBuilder d marshal client b2 (saveBuilder d marshal client b1 w).2).2.builders
        = [stored] ∧
      stored.ObjectMeta.Name = d.BuilderName ∧
      stored.Spec = b2.Spec ∧
      mapGet stored.ObjectMeta.Annotations d.OldSpecAnnotation = some j1 := by
  have h1 : saveBuilder d marshal client b1 w
      = (none,
          { w with
            builders := [b1]
            calls := .CreateBuilder b1 :: .GetBuilder d.BuilderName :: w.calls }) := by
    simp [saveBuilder, Clientset.getBuilder, Clientset.createBuilder, hget, hcreate, hstore,
      IsNotFound, errOf]
  have h2 : saveBuilder d marshal client b2
        { w with
          builders := [b1]
          calls := .CreateBuilder b1 :: .GetBuilder d.BuilderName :: w.calls }
      = (none,
          { w with
            builders := [updatedBuilder d b1 b2 j1]
            calls := .UpdateBuilder (updatedBuilder d b1 b2 j1) :: .GetBuilder d.BuilderName ::
              .CreateBuilder b1 :: .GetBuilder d.BuilderName :: w.calls }) := by
    simp [saveBuilder, Clientset.getBuilder, Clientset.updateBuilder, hget, hupdate, hname, hm,
      updatedBuilder]
  refine ⟨by rw [h1], by rw [h1, h2], updatedBuilder d b1 b2 j1, by rw [h1, h2], hname, rfl,
    mapGet_mapSet _ _ _⟩

theorem C4_saveBuilder_twice_witness :
    ∃ stored : CustomClusterBuilder,
      (saveBuilder sampleDefaults sampleMarshal (sampleClient none (fun _ => none)) builderB
        (saveBuilder sampleDefaults sampleMarshal (sampleClient none (fun _ => none)) builderA
          {}).2).2.builders = [stored] ∧
      stored.ObjectMeta.Name = sampleDefaults.BuilderName ∧
      stored.Spec = builderB.Spec ∧
      mapGet stored.ObjectMeta.Annotations sampleDefaults.OldSpecAnnotation = some "a,s1,t1" :=
  (C4_saveBuilder_twice sampleDefaults sampleMarshal (sampleClient none (fun _ => none))
    builderA builderB {} "a,s1,t1" rfl rfl rfl rfl rfl rfl).2.2

/-- C5: in `Populate`, once the clients are built and the configuration is loaded:
(a) when the namespace Create call answers with an AlreadyExists error, the run does
not return there: it is the same run as when the namespace Create call succeeds, so
its result is decided by the later steps only, and it issues the secret Create call;
(b) when the namespace Create call answers with any other error, `Populate` returns
that error, the namespace Create call is the last call issued, and no secret, service
account, builder or image has been created. -/
theorem C5_namespace_already_exists_is_tolerated (d : Defaults) (env : Env) (fuel : Nat)
    (count : Int32) (order : Order) (imageTag cacheSize : String) (w w1 : World) (c : config)
    (h1 : env.BuildConfigFromFlags = none) (h2 : env.KubernetesNewForConfig = none)
    (h3 : env.VersionedNewForConfig = none)
    (hload : loadConfig env count imageTag w = ((c, none), w1)) :
    (∀ e, env.k8sclient.CreateNamespace { ObjectMeta := { Name := d.Namespace } } = .error e →
      IsAlreadyExists (some e) = true →
      Populate d env fuel count order imageTag cacheSize w
        = Populate d (namespaceCreated env) fuel count order imageTag cacheSize w ∧
      Call.CreateSecret d.Namespace (registrySecret c)
        ∈ (Populate d env fuel count order imageTag cacheSize w).world.calls) ∧
    (∀ e, env.k8sclient.CreateNamespace { ObjectMeta := { Name := d.Namespace } } = .error e →
      IsAlreadyExists (some e) = false →
      ∃ w2, Populate d env fuel count order imageTag cacheSize w = .returned (some e) w2 ∧
        w2.calls = .CreateNamespace { ObjectMeta := { Name := d.Namespace } } :: w1.calls ∧
        w2.secrets = w.secrets ∧ w2.serviceAccounts = w.serviceAccounts ∧
        w2.builders = w.builders ∧ w2.images = w.images) := by
  constructor
  · intro e he hae
    have hs := setup_past_namespace d env count order imageTag cacheSize w w1 c h1 h2 h3 hload
      (Or.inl (by rw [he]; exact hae))
    have hs2 := setup_past_namespace d (namespaceCreated env) count order imageTag cacheSize w w1
      c h1 h2 h3 hload (Or.inr rfl)
    constructor
    · unfold Populate
      rw [hs, hs2]
      rfl
    · have hsuf := afterNamespace_issues_secret d env c order cacheSize
        { w1 with
          calls := .CreateNamespace { ObjectMeta := { Name := d.Namespace } } :: w1.calls }
      rw [← hs] at hsuf
      exact (hsuf.trans
        (Populate_calls_of_setup d env fuel count order imageTag cacheSize w)).subset
        (List.mem_cons_self _ _)
  · intro e he hae
    have hl := loadConfig_frame env count imageTag w
    rw [hload] at hl
    refine ⟨{ w1 with
      calls := .CreateNamespace { ObjectMeta := { Name := d.Namespace } } :: w1.calls },
      ?_, rfl, hl.2.2.1, hl.2.2.2.1, hl.2.2.2.2.1, hl.1⟩
    apply Populate_of_setup_error
    simp [Populate.setup, h1, h2, h3, hload, CoreClient.createNamespace, he, hae]

theorem C5_namespace_already_exists_is_tolerated_witness :
    (Populate sampleDefaults (sampleEnv (some errExists) none (fun _ => none)) 3 two {}
        "r.io/app" "1Gi" {}
      = Populate sampleDefaults (namespaceCreated (sampleEnv (some errExists) none (fun _ => none)))
          3 two {} "r.io/app" "1Gi" {} ∧
      Call.CreateSecret sampleDefaults.Namespace
          (registrySecret
            { username := "u", password := "p", count := 2, imageTag := "r.io/app",
              registry := "r.io" })
        ∈ (Populate sampleDefaults (sampleEnv (some errExists) none (fun _ => none)) 3 two {}
            "r.io/app" "1Gi" {}).world.calls) ∧
    ∃ w2, Populate sampleDefaults (sampleEnv (some errOther) none (fun _ => none)) 3 two {}
        "r.io/app" "1Gi" {} = .returned (some errOther) w2 ∧ w2.secrets = [] :=
  ⟨(C5_namespace_already_exists_is_tolerated sampleDefaults
      (sampleEnv (some errExists) none (fun _ => none)) 3 two {} "r.io/app" "1Gi" {} _ _
      rfl rfl rfl rfl).1 errExists rfl rfl,
    ((C5_namespace_already_exists_is_tolerated sampleDefaults
      (sampleEnv (some errOther) none (fun _ => none)) 3 two {} "r.io/app" "1Gi" {} _ _
      rfl rfl rfl rfl).2 errOther rfl rfl).elim fun w2 h => ⟨w2, h.1, h.2.2.1⟩⟩

/-- C6: for every image tag the reference parser rejects, `loadConfig` returns the
empty config and an error and issues no call (the credential store is not consulted,
the world is unchanged); the error depends on the tag and the parser's answer only, so
every run on that input fails the same way; and `Populate` returns an error with the
world unchanged: no namespace and no other resource has been created. -/
theorem C6_unparsable_tag_fails (env : Env) (count : Int32) (imageTag : String) (w : World)
    (e : Err) (hparse : env.ParseReference imageTag = .error e) :
    loadConfig env count imageTag w
      = (({}, some (Wrapf e ("could not parse " ++ imageTag))), w) ∧
    (∀ (env2 : Env) (count2 : Int32) (w2 : World),
      env2.ParseReference imageTag = env.ParseReference imageTag →
      (loadConfig env2 count2 imageTag w2).1 = (loadConfig env count imageTag w).1) ∧
    (∀ (d : Defaults) (fuel : Nat) (order : Order) (cacheSize : String),
      ∃ err, Populate d env fuel count order imageTag cacheSize w = .returned (some err) w) := by
  refine ⟨by simp only [loadConfig, hparse], ?_, ?_⟩
  · intro env2 count2 w2 h2
    rw [hparse] at h2
    simp only [loadConfig, hparse, h2]
  · intro d fuel order cacheSize
    have hs : ∃ err, Populate.setup d env count order imageTag cacheSize w = (.error err, w) := by
      unfold Populate.setup
      split
      · exact ⟨_, rfl⟩
      split
      · exact ⟨_, rfl⟩
      split
      · exact ⟨_, rfl⟩
      simp only [loadConfig, hparse]
      exact ⟨_, rfl⟩
    obtain ⟨err, hs⟩ := hs
    exact ⟨err, Populate_of_setup_error d env fuel count order imageTag cacheSize w w err hs⟩

theorem C6_unparsable_tag_fails_witness :
    loadConfig (sampleEnv none none (fun _ => none)) two "" {}
      = (({}, some (Wrapf (.plain "empty reference") ("could not parse " ++ ""))), {}) ∧
    Populate sampleDefaults (sampleEnv none none (fun _ => none)) 3 two {} "" "1Gi" {}
      = .returned (some (Wrapf (.plain "empty reference") ("could not parse " ++ ""))) {} :=
  ⟨(C6_unparsable_tag_fails (sampleEnv none none (fun _ => none)) two "" {}
      (.plain "empty reference") rfl).1, rfl⟩

/-- C7: for every image tag that parses (to `reg`) and whose credentials resolve (to
`basicAuth`), `loadConfig` returns without error a config whose registry is
`"https://" + name.DefaultRegistry + "/v1/"` when the parsed registry host string
equals `name.DefaultRegistry` and the parsed registry host string itself otherwise, and
whose username, password, image tag and count are the resolved username, the resolved
password, the input image tag and the input count. -/
theorem C7_loadConfig_fields (env : Env) (count : Int32) (imageTag : String) (w : World)
    (reg : Reference) (auth : Authenticator) (basicAuth : AuthConfig)
    (hparse : env.ParseReference imageTag = .ok reg)
    (hresolve : env.Resolve reg.Registry = .ok auth)
    (hauth : auth.Authorization = .ok basicAuth) :
    ∃ (c : config) (w1 : World),
      loadConfig env count imageTag w = ((c, none), w1) ∧
      (reg.Registry.RegistryStr = env.DefaultRegistry →
        c.registry = "https://" ++ env.DefaultRegistry ++ "/v1/") ∧
      (reg.Registry.RegistryStr ≠ env.DefaultRegistry →
        c.registry = reg.Registry.RegistryStr) ∧
      c.username = basicAuth.Username ∧ c.password = basicAuth.Password ∧
      c.imageTag = imageTag ∧ c.count = count.val := by
  have h : loadConfig env count imageTag w
      = (({ username := basicAuth.Username
            password := basicAuth.Password
            count := count.val
            imageTag := imageTag
            registry :=
              if reg.Registry.RegistryStr = env.DefaultRegistry then
                "https://" ++ env.DefaultRegistry ++ "/v1/"
              else reg.Registry.RegistryStr },
          none),
         { w with calls := .Authorization :: .KeychainResolve reg.Registry :: w.calls }) := by
    simp only [loadConfig, hparse, hresolve, hauth]
  refine ⟨_, _, h, ?_, ?_, rfl, rfl, rfl, rfl⟩
  · intro hd
    simp only [hd, if_true]
  · intro hd
    simp only [hd, if_false]

theorem C7_loadConfig_fields_witness :
    ∃ (c : config) (w1 : World),
      loadConfig (sampleEnv none none (fun _ => none)) two "r.io/app" {} = ((c, none), w1) ∧
      c.registry = "r.io" ∧ c.username = "u" ∧ c.password = "p" ∧
      c.imageTag = "r.io/app" ∧ c.count = 2 :=
  (C7_loadConfig_fields (sampleEnv none none (fun _ => none)) two "r.io/app" {}
    { Registry := { RegistryStr := "r.io" } }
    { Authorization := .ok { Username := "u", Password := "p" } }
    { Username := "u", Password := "p" } rfl rfl rfl).elim fun c h =>
    h.elim fun w1 hw => ⟨c, w1, hw.1, hw.2.2.1 (by decide), hw.2.2.2⟩

/-- C8: in the job loop of `Populate`, when the image Create call number `m` is issued
(the earlier outcomes are successes or AlreadyExists errors and fewer than `count` of
them are successes) and fails with an error `e` that is not AlreadyExists, `Populate`
returns `e`; that call is the last image Create call; the images created by the
earlier passes are in place, as many as there were successes before, fewer than
`count`. -/
theorem C8_fatal_create_error_aborts (d : Defaults) (env : Env) (count : Int32)
    (order : Order) (imageTag cacheSize : String) (w w0 : World) (c : config)
    (serviceAccount : ServiceAccount) (cache : Quantity)
    (hsetup : Populate.setup d env count order imageTag cacheSize w
      = (.ok (c, serviceAccount, cache), w0))
    (m : Nat) (e : Err)
    (hbefore : ∀ j, j < m → env.client.CreateImage (w.imageCreates + j) = none ∨
      IsAlreadyExists (env.client.CreateImage (w.imageCreates + j)) = true)
    (hrunning : (successesBefore env.client.CreateImage w.imageCreates m : Int) < count.val)
    (hm : env.client.CreateImage (w.imageCreates + m) = some e)
    (hfatal : IsAlreadyExists (some e) = false)
    (fuel : Nat) (hfuel : m < fuel) :
    ∃ w1 : World,
      Populate d env fuel count order imageTag cacheSize w = .returned (some e) w1 ∧
      w1.imageCreates = w.imageCreates + m + 1 ∧
      w1.images.length
        = w.images.length + successesBefore env.client.CreateImage w.imageCreates m ∧
      w.images <:+ w1.images ∧
      ((w1.images.length : Int) - w.images.length < count.val) := by
  obtain ⟨hc, _, _, himg, hn, _⟩ :=
    setup_ok d env count order imageTag cacheSize w w0 c serviceAccount cache hsetup
  have hhi := count.hi
  rw [← hn] at hbefore hrunning hm
  rw [← hn, ← himg]
  have hin : ∀ j, j < m →
      1 + (successesBefore env.client.CreateImage w0.imageCreates j : Int) ≤ c.count := by
    intro j hj
    have := successesBefore_mono env.client.CreateImage j w0.imageCreates m (by omega)
    omega
  obtain ⟨w1, hrun, hn1, hlen, hsuf, _⟩ := loop_passes d env.rand env.NewNameGenerator
    env.client c serviceAccount cache (by omega) m 1 w0 (by omega) hbefore hin
  obtain ⟨f, rfl⟩ : ∃ f, fuel = f + 1 + m := ⟨fuel - 1 - m, by omega⟩
  refine ⟨w1.afterRefused d.Namespace
    (nextImage d env.rand env.NewNameGenerator c serviceAccount cache w1), ?_, ?_, ?_, ?_, ?_⟩
  · rw [Populate_of_setup_ok d env _ count order imageTag cacheSize w w0 c serviceAccount
      cache hsetup, hrun (f + 1)]
    exact loop_fatal d env.rand env.NewNameGenerator env.client c serviceAccount cache f _ w1
      (by omega) e (by rw [hn1]; exact hm) hfatal
  · simp only [World.afterRefused]
    omega
  · simp only [World.afterRefused]
    omega
  · simpa only [World.afterRefused] using hsuf
  · simp only [World.afterRefused]
    omega

theorem C8_fatal_create_error_aborts_witness :
    ∃ w1 : World,
      Populate sampleDefaults
          (sampleEnv none none
            (fun n => if n = 0 then none else if n = 1 then some errExists else some errOther))
          5 two {} "r.io/app" "1Gi" {} = .returned (some errOther) w1 ∧
      w1.imageCreates = 3 ∧ w1.images.length = 1 :=
  have h := C8_fatal_create_error_aborts sampleDefaults
    (sampleEnv none none
      (fun n => if n = 0 then none else if n = 1 then some errExists else some errOther))
    two {} "r.io/app" "1Gi" {} _ _ _ _ rfl 2 errOther (by decide) (by decide) rfl rfl 5
    (by decide)
  h.elim fun w1 hw => ⟨w1, hw.1, hw.2.1, hw.2.2.1⟩

/-- C9: (1) `randomSourceConfig`, on a random index `i` drawn in `[0, 4)`, returns the
`i`-th of the four source configurations with the `i`-th label, the index being in
bounds for both lists; the pairs are sample-java-app/java, build-samples/node,
go-mod-cnb/go and dotnet-core-runtime-cnb/dotnet.  (2) Every image `Populate` submits
for creation has builder reference name `defaults.BuilderName` of kind
`CustomClusterBuilder`, the name of the service account the run created, one of the
four sources, and the tag `imageTag + ":" +` the label paired with that source. -/
theorem C9_images_pair_source_and_label :
    (∀ draw i : Nat, i < 4 → Intn draw sourceConfigs.length = i →
      ∃ source label, sourceConfigs[i]? = some source ∧ imageTypes[i]? = some label ∧
        randomSourceConfig draw = some (source, label)) ∧
    (sourceConfigs.zip imageTypes).map (fun p => (p.1.Git.map (fun g => g.URL), p.2))
      = [(some "https://github.com/matthewmcnew/sample-java-app", "java"),
         (some "https://github.com/matthewmcnew/build-samples", "node"),
         (some "https://github.com/cloudfoundry/go-mod-cnb", "go"),
         (some "https://github.com/cloudfoundry/dotnet-core-runtime-cnb", "dotnet")] ∧
    (∀ (d : Defaults) (env : Env) (fuel : Nat) (count : Int32) (order : Order)
        (imageTag cacheSize : String) (w : World),
      ∃ new : List Image,
        submittedImages (Populate d env fuel count order imageTag cacheSize w).world.calls
          = new ++ submittedImages w.calls ∧
        ∀ img, img ∈ new →
          img.Spec.Builder.Name = d.BuilderName ∧
          img.Spec.Builder.Kind = "CustomClusterBuilder" ∧
          (∃ serviceAccount,
            (Populate d env fuel count order imageTag cacheSize w).world.serviceAccounts
              = serviceAccount :: w.serviceAccounts ∧
            img.Spec.ServiceAccount = serviceAccount.ObjectMeta.Name) ∧
          ∃ i label, i < 4 ∧ sourceConfigs[i]? = some img.Spec.Source ∧
            imageTypes[i]? = some label ∧ img.Spec.Tag = imageTag ++ ":" ++ label) := by
  refine ⟨?_, by decide, ?_⟩
  · intro draw i hi hdraw
    have h4 : draw % 4 = i := by simpa [Intn, sourceConfigs] using hdraw
    interval_cases i <;> simp [randomSourceConfig, Intn, sourceConfigs, imageTypes, h4]
  · intro d env fuel count order imageTag cacheSize w
    rcases hs : Populate.setup d env count order imageTag cacheSize w with ⟨res, w0⟩
    cases res with
    | error err =>
      rw [Populate_of_setup_error d env fuel count order imageTag cacheSize w w0 err hs]
      have hfr := setup_frame d env count order imageTag cacheSize w
      rw [hs] at hfr
      exact ⟨[], by simpa [Run.world] using hfr.2.2, by simp⟩
    | ok r =>
      obtain ⟨c, serviceAccount, cache⟩ := r
      rw [Populate_of_setup_ok d env fuel count order imageTag cacheSize w w0 c serviceAccount
        cache hs]
      obtain ⟨_, htag, hsa, _, _, hsub⟩ :=
        setup_ok d env count order imageTag cacheSize w w0 c serviceAccount cache hs
      obtain ⟨_, _, hsa1, new, hnew, hgood⟩ := loop_frame d env.rand env.NewNameGenerator
        env.client c serviceAccount cache fuel 1 w0
      refine ⟨new, by rw [hnew, hsub], ?_⟩
      intro img himg
      obtain ⟨name, draw, rfl⟩ := hgood img himg
      obtain ⟨i, hi, hsrc, hlabel⟩ := pick_in_tables draw
      exact ⟨rfl, rfl, ⟨serviceAccount, by rw [hsa1, hsa], rfl⟩, i, (pick draw).2, hi, hsrc, hlabel,
        by simp [newImage, htag]⟩

theorem C9_images_pair_source_and_label_witness :
    ∃ source label, sourceConfigs[2]? = some source ∧ imageTypes[2]? = some label ∧
      randomSourceConfig 6 = some (source, label) :=
  C9_images_pair_source_and_label.1 6 2 (by decide) rfl

/-- C10: the job loop of `Populate` has no bound on retries.  Once the steps before
the loop have succeeded: (a) for a count `N ≥ 1` and every `k`, if the first `k`
outcomes of the image Create call are AlreadyExists errors and the next `N` are
successes, the run ends with `nil` after exactly `N + k` Create attempts (with fuel
for `N + k` passes it returns, with less it is still running); (b) for `N ≥ 1`, if
every outcome is AlreadyExists, the run is still in the loop after any number of
attempts; (c) for a count `≤ 0` the loop makes no Create attempt and the run ends
with `nil`. -/
theorem C10_job_loop_retries_without_bound (d : Defaults) (env : Env) (count : Int32)
    (order : Order) (imageTag cacheSize : String) (w w0 : World) (c : config)
    (serviceAccount : ServiceAccount) (cache : Quantity)
    (hsetup : Populate.setup d env count order imageTag cacheSize w
      = (.ok (c, serviceAccount, cache), w0)) :
    (∀ k : Nat, 1 ≤ count.val →
      (∀ j, j < k → IsAlreadyExists (env.client.CreateImage (w.imageCreates + j)) = true) →
      (∀ j, k ≤ j → j < k + count.val.toNat →
        env.client.CreateImage (w.imageCreates + j) = none) →
      (∀ fuel, count.val.toNat + k ≤ fuel →
        ∃ w1, Populate d env fuel count order imageTag cacheSize w = .returned none w1 ∧
          w1.imageCreates = w.imageCreates + (count.val.toNat + k)) ∧
      (∀ fuel, fuel < count.val.toNat + k →
        ∃ w1, Populate d env fuel count order imageTag cacheSize w = .outOfFuel w1)) ∧
    (1 ≤ count.val →
      (∀ j, IsAlreadyExists (env.client.CreateImage (w.imageCreates + j)) = true) →
      ∀ fuel, ∃ w1, Populate d env fuel count order imageTag cacheSize w = .outOfFuel w1 ∧
        w1.imageCreates = w.imageCreates + fuel) ∧
    (count.val ≤ 0 →
      ∀ fuel, Populate d env fuel count order imageTag cacheSize w = .returned none w0 ∧
        w0.imageCreates = w.imageCreates) := by
  obtain ⟨hc, _, _, _, hn, _⟩ :=
    setup_ok d env count order imageTag cacheSize w w0 c serviceAccount cache hsetup
  have hhi := count.hi
  have hP : ∀ fuel, Populate d env fuel count order imageTag cacheSize w
      = Populate.loop d env.rand env.NewNameGenerator env.client c serviceAccount cache fuel 1
          w0 := fun fuel =>
    Populate_of_setup_ok d env fuel count order imageTag cacheSize w w0 c serviceAccount cache
      hsetup
  rw [← hn]
  refine ⟨?_, ?_, ?_⟩
  · intro k hN hk hcr
    have hN' := Int.toNat_of_nonneg (show 0 ≤ count.val by omega)
    have hne : ∀ t, t < k → env.client.CreateImage (w0.imageCreates + t) ≠ none :=
      fun t ht => isAlreadyExists_ne_none _ (hk t ht)
    have hout : ∀ j, j < k + count.val.toNat →
        env.client.CreateImage (w0.imageCreates + j) = none ∨
          IsAlreadyExists (env.client.CreateImage (w0.imageCreates + j)) = true := by
      intro j hj
      by_cases hjk : j < k
      · exact Or.inr (hk j hjk)
      · exact Or.inl (hcr j (by omega) hj)
    have hin : ∀ j, j < k + count.val.toNat →
        1 + (successesBefore env.client.CreateImage w0.imageCreates j : Int) ≤ c.count := by
      intro j hj
      have := successesBefore_after_refusals env.client.CreateImage j w0.imageCreates k hne
      omega
    constructor
    · intro fuel hfuel
      obtain ⟨w1, hrun, hn1, _⟩ := loop_passes d env.rand env.NewNameGenerator env.client c
        serviceAccount cache (by omega) (k + count.val.toNat) 1 w0 (by omega) hout hin
      obtain ⟨f, rfl⟩ : ∃ f, fuel = f + (k + count.val.toNat) :=
        ⟨fuel - (k + count.val.toNat), by omega⟩
      refine ⟨w1, ?_, by omega⟩
      rw [hP, hrun f]
      apply loop_exit
      have := successesBefore_refusals_then_created env.client.CreateImage count.val.toNat k
        w0.imageCreates hne hcr
      omega
    · intro fuel hfuel
      obtain ⟨w1, hrun, _⟩ := loop_passes d env.rand env.NewNameGenerator env.client c
        serviceAccount cache (by omega) fuel 1 w0 (by omega)
        (fun j hj => hout j (by omega)) (fun j hj => hin j (by omega))
      refine ⟨w1, ?_⟩
      have h0 := hrun 0
      rw [Nat.zero_add] at h0
      rw [hP, h0]
      apply loop_zero
      have := successesBefore_after_refusals env.client.CreateImage fuel w0.imageCreates k hne
      omega
  · intro hN hall fuel
    have hne : ∀ t, t < fuel → env.client.CreateImage (w0.imageCreates + t) ≠ none :=
      fun t _ => isAlreadyExists_ne_none _ (hall t)
    have hzero : ∀ j, j ≤ fuel → successesBefore env.client.CreateImage w0.imageCreates j = 0 := by
      intro j hj
      have := successesBefore_after_refusals env.client.CreateImage j w0.imageCreates fuel hne
      omega
    obtain ⟨w1, hrun, hn1, _⟩ := loop_passes d env.rand env.NewNameGenerator env.client c
      serviceAccount cache (by omega) fuel 1 w0 (by omega)
      (fun j _ => Or.inr (hall j))
      (fun j hj => by rw [hzero j (by omega)]; simp; omega)
    refine ⟨w1, ?_, hn1⟩
    have h0 := hrun 0
    rw [Nat.zero_add] at h0
    rw [hP, h0]
    apply loop_zero
    rw [hzero fuel (le_refl _)]
    simp
    omega
  · intro hN fuel
    refine ⟨?_, rfl⟩
    rw [hP]
    apply loop_exit
    omega

theorem C10_job_loop_retries_without_bound_witness :
    ∃ w1 : World,
      Populate sampleDefaults
          (sampleEnv none none (fun n => if n = 0 then some errExists else none))
          3 two {} "r.io/app" "1Gi" {} = .returned none w1 ∧
      w1.imageCreates = 0 + (2 + 1) :=
  ((C10_job_loop_retries_without_bound sampleDefaults
    (sampleEnv none none (fun n => if n = 0 then some errExists else none))
    two {} "r.io/app" "1Gi" {} _ _ _ _ rfl).1 1 (by decide) (by decide) (by decide)).1 3
    (by decide)

end populate
